import Mathlib

/-!
Verification of the Prism (Eternity Kernel) compiler + virtual machine core.

The development shallowly embeds the TypeScript sources:
  - `src/core/memory/values.ts`     (tagged runtime values),
  - `src/core/memory/heap.ts`       (heap of arrays),
  - `src/core/vm/guardian.ts`       (runtime safety checks),
  - `src/core/vm/virtual-machine.ts` (the current fetch-decode-execute loop:
    the revision with `checkInitialized`, the peek jump opcodes and the
    `STORE_IDX` result push),
  - `src/lang/lexer/lexer.ts`       (keyword table),
  - `src/lang/codegen/symbol-table.ts`,
  - `src/lang/codegen/codegen.ts`.

JavaScript numbers are modelled exactly: integer payloads as `Int`, double
payloads as `Rat` (the programs under study only ever produce values on which
IEEE-754 binary64 arithmetic is exact), `Math.trunc` as `ratTrunc`, and the
JS `%` remainder as `jsRem`.  Fallible operations return `Except`; thrown
`RuntimeError` / `CompileError` objects become the structured error types
`RtErr` / `CErr`, each with a `message` renderer reproducing the source's
message strings.
-/

set_option maxRecDepth 10000

namespace Prism

/-- Token kind enumeration, from `src/lang/lexer/tokens.ts` (`TokenType`).
Keyword kinds are written with a `kw` marker because the bare words are
reserved in Lean. -/
inductive TokenType where
  | intLiteral | doubleLiteral | stringLiteral
  | identifier
  | kwInt | kwDouble | kwBool | kwTrue | kwFalse
  | kwIf | kwElse | kwFor | kwWhile | kwBreak | kwContinue
  | plus | minus | star | slash | percent
  | inc | dec
  | assign | plusAssign | minusAssign | starAssign | slashAssign | percentAssign
  | eq | neq | lt | gt | lte | gte
  | logicalNot | logicalAnd | logicalOr
  | lparen | rparen | lbrace | rbrace | lbracket | rbracket
  | semicolon | comma
  | eof
deriving DecidableEq, Repr

/-- Token record, from `src/lang/lexer/tokens.ts` (`Token`). -/
structure Token where
  type : TokenType
  lexeme : String
  line : Nat
  col : Nat
deriving DecidableEq, Repr

/-- JS `Math.trunc` on an exact rational: round toward zero.  Truncating
division of the numerator by the (positive) denominator implements this;
`ratTrunc_eq_floor` / `ratTrunc_eq_ceil` below characterize it as the
floor for nonnegative arguments and the ceiling for negative ones. -/
def ratTrunc (q : ℚ) : ℤ := q.num.tdiv q.den

/-- Exact JS number addition.  (Defined through `mkRat` rather than the
field structure of `ℚ` so that it evaluates inside the kernel;
`ratAdd_eq` proves it equal to `a + b`.) -/
def ratAdd (a b : ℚ) : ℚ := mkRat (a.num * b.den + b.num * a.den) (a.den * b.den)

/-- Exact JS number subtraction; `ratSub_eq` proves it equal to `a - b`. -/
def ratSub (a b : ℚ) : ℚ := mkRat (a.num * b.den - b.num * a.den) (a.den * b.den)

/-- Exact JS number multiplication; `ratMul_eq` proves it equal to `a * b`. -/
def ratMul (a b : ℚ) : ℚ := mkRat (a.num * b.num) (a.den * b.den)

/-- Exact JS number division (the VM guards the divisor against zero
before using it); `ratDiv_eq` proves it equal to `a / b`. -/
def ratDiv (a b : ℚ) : ℚ := Rat.divInt (a.num * b.den) (a.den * b.num)

/-- JS remainder `a % b` on exact rationals:
`a - b * Math.trunc(a / b)`; for `b ≠ 0` this is the IEEE/C `fmod`, whose
sign follows the dividend (`jsRem_eq` restates it over `/`). -/
def jsRem (a b : ℚ) : ℚ := ratSub a (ratMul b ((ratTrunc (ratDiv a b) : ℤ) : ℚ))

/-- Runtime value, from `src/core/memory/values.ts` (`VMValue` plus the
`UninitializedValue` sentinel).  A pointer carries its heap address; its
`type: 'array'` discriminator is constant and therefore omitted. -/
inductive VMValue where
  | int (n : ℤ)
  | double (q : ℚ)
  | bool (b : Bool)
  | pointer (address : ℕ)
  | uninit
deriving DecidableEq, Repr

/-- Factory `createInt` from values.ts: `Math.trunc` guarantees an integer. -/
def createInt (q : ℚ) : VMValue := .int (ratTrunc q)

/-- Factory `createDouble` from values.ts. -/
def createDouble (q : ℚ) : VMValue := .double q

/-- Factory `createBool` from values.ts. -/
def createBool (b : Bool) : VMValue := .bool b

/-- Factory `createPointer` from values.ts. -/
def createPointer (address : ℕ) : VMValue := .pointer address

/-- Factory `createUninitialized` from values.ts. -/
def createUninitialized : VMValue := .uninit

/-- Numeric test used by the VM's arithmetic/comparison guards:
`type === INT || type === DOUBLE`. -/
def VMValue.isNumeric : VMValue → Bool
  | .int _ => true
  | .double _ => true
  | _ => false

/-- Numeric payload (`value.value` read as a JS number).  Only meaningful
after `isNumeric` has been checked; other tags default to `0`. -/
def VMValue.num : VMValue → ℚ
  | .int n => (n : ℚ)
  | .double q => q
  | _ => 0

/-- JS strict equality `left.value === right.value` as evaluated by the
`EQ`/`NEQ` opcodes.  Int and double payloads are both JS numbers, so they
compare numerically across the two tags; booleans compare to booleans;
pointer payloads are objects compared by identity, which for pointers that
actually flow through this VM (copies of one `createPointer` result per
`ALLOC_ARR`) coincides with address equality; `null === null` is true for
two uninit sentinels (unreachable behind `checkInitialized`). -/
def jsStrictEq : VMValue → VMValue → Bool
  | .int a, .int b => a = b
  | .int a, .double b => (a : ℚ) = b
  | .double a, .int b => a = (b : ℚ)
  | .double a, .double b => a = b
  | .bool a, .bool b => a = b
  | .pointer a, .pointer b => a = b
  | .uninit, .uninit => true
  | _, _ => false

/-- JS logical negation `!value.value` used by the `NOT` opcode (the strict
boolean check in the source is commented out, so `NOT` coerces):
numbers are falsy exactly at 0, pointer payloads are objects hence truthy,
the uninit payload `null` is falsy. -/
def jsNot : VMValue → Bool
  | .int n => n = 0
  | .double q => q = 0
  | .bool b => !b
  | .pointer _ => false
  | .uninit => true

/-- Structured runtime errors.  Each constructor corresponds to one
`RuntimeError` (or stack `Error`) thrown by the VM, the Guardian
(`src/core/vm/guardian.ts`) or the stack (`src/core/memory/call-stack.ts`);
`RtErr.message` renders the exact message string of the source. -/
inductive RtErr where
  | uninitialized
  | operandsMustBeNumbers
  | divisionByZero
  | conditionMustBeBool
  | arraySizeMustBeInt
  | arrayIndexMustBeInt
  | loadIdxNeedsPointer
  | storeIdxNeedsPointer
  | arrayIndexOutOfBounds (index : ℤ) (arrayLength : ℕ)
  | invalidHeapAddress (address : ℕ) (heapSize : ℕ)
  | invalidArrayLength
  | stackOverflow
  | stackUnderflow
  | stackEmpty
  | invalidLocalLoad (index : ℕ)
  | invalidLocalStore (index : ℕ)
deriving DecidableEq, Repr

/-- Message renderer for runtime errors, reproducing the strings of
virtual-machine.ts, guardian.ts and the stack module. -/
def RtErr.message : RtErr → String
  | .uninitialized => "使用了未初始化的变量。"
  | .operandsMustBeNumbers => "操作数必须是数字。"
  | .divisionByZero => "不能除以零。"
  | .conditionMustBeBool => "条件表达式必须是布尔值。"
  | .arraySizeMustBeInt => "数组大小必须是整数"
  | .arrayIndexMustBeInt => "数组索引必须是整数"
  | .loadIdxNeedsPointer => "LOAD_IDX 需要一个指针"
  | .storeIdxNeedsPointer => "STORE_IDX 需要一个指针"
  | .arrayIndexOutOfBounds i len =>
      let hi : ℤ := (len : ℤ) - 1
      s!"数组访问越界：索引 {i} 超出范围 [0, {hi}]"
  | .invalidHeapAddress a n => s!"无效的内存地址：试图访问地址 {a}，但堆大小仅为 {n}"
  | .invalidArrayLength => "Invalid array length"
  | .stackOverflow => "Stack overflow"
  | .stackUnderflow => "Stack underflow"
  | .stackEmpty => "Stack is empty"
  | .invalidLocalLoad i => s!"Invalid local variable load at index {i}"
  | .invalidLocalStore i => s!"Invalid local variable store at index {i}"

/-- Guardian check `checkInitialized` (private helper of the current
virtual-machine.ts): fails exactly on the uninitialized sentinel. -/
def checkInitialized (value : VMValue) : Except RtErr Unit :=
  if value = .uninit then .error .uninitialized else .ok ()

/-- Guardian `checkArrayBounds(arrayLength, index)` from guardian.ts:
error unless `0 ≤ index < arrayLength`. -/
def checkArrayBounds (arrayLength : ℕ) (index : ℤ) : Except RtErr Unit :=
  if index < 0 ∨ (arrayLength : ℤ) ≤ index then
    .error (.arrayIndexOutOfBounds index arrayLength)
  else .ok ()

/-- Guardian `checkHeapAddress(address, heapSize)` from guardian.ts.
Pointer addresses are only ever produced by allocation, hence natural;
the `address < 0` half of the source check is vacuous. -/
def checkHeapAddress (address : ℕ) (heapSize : ℕ) : Except RtErr Unit :=
  if heapSize ≤ address then .error (.invalidHeapAddress address heapSize)
  else .ok ()

/-- The unified stack, from the `VMStack` class of
`src/core/memory/call-stack.ts`: a fixed-size array
(`new Array(STACK_MAX_SIZE)`) with stack pointer `sp` always pointing at
the next free slot.  The backing array is embedded as a total function
`ℕ → VMValue` plus `sp`, unwritten slots defaulting to the uninitialized
sentinel (JS array holes read as `undefined`; the VM never reads an
unwritten slot on the paths it guards). -/
structure VMStack where
  data : ℕ → VMValue
  sp : ℕ

/-- `STACK_MAX_SIZE = 2048` from call-stack.ts. -/
def stackCapacity : ℕ := 2048

/-- `push(value)` from call-stack.ts: `Error('Stack overflow')` when
`sp >= STACK_MAX_SIZE`, else write at `sp` and increment. -/
def VMStack.push (s : VMStack) (v : VMValue) : Except RtErr VMStack :=
  if stackCapacity ≤ s.sp then .error .stackOverflow
  else .ok { data := Function.update s.data s.sp v, sp := s.sp + 1 }

/-- `pop()` from call-stack.ts: `Error('Stack underflow')` when `sp <= 0`,
else return `stack[--sp]` (the dense array retains the cell). -/
def VMStack.pop (s : VMStack) : Except RtErr (VMValue × VMStack) :=
  if s.sp = 0 then .error .stackUnderflow
  else .ok (s.data (s.sp - 1), { s with sp := s.sp - 1 })

/-- `peek()` from call-stack.ts: `Error('Stack is empty')` when `sp <= 0`,
else read the top without popping. -/
def VMStack.peek (s : VMStack) : Except RtErr VMValue :=
  if s.sp = 0 then .error .stackEmpty
  else .ok (s.data (s.sp - 1))

/-- `load(basePointer, index)` from call-stack.ts: with `addr = bp + index`,
`Error('Invalid local variable load at index N')` unless `0 <= addr < sp`
(the lower bound is vacuous over ℕ), else read `stack[addr]`. -/
def VMStack.load (s : VMStack) (bp slot : ℕ) : Except RtErr VMValue :=
  if bp + slot < s.sp then .ok (s.data (bp + slot))
  else .error (.invalidLocalLoad slot)

/-- `store(basePointer, index, value)` from call-stack.ts: with
`addr = bp + index`, `Error('Invalid local variable store at index N')`
unless `0 <= addr < STACK_MAX_SIZE`, else write `stack[addr]` in place,
`sp` unchanged. -/
def VMStack.store (s : VMStack) (bp slot : ℕ) (v : VMValue) : Except RtErr VMStack :=
  if bp + slot < stackCapacity then
    .ok { s with data := Function.update s.data (bp + slot) v }
  else .error (.invalidLocalStore slot)

/-- Heap, from `src/core/memory/heap.ts`: an array of arrays, the outer
index being the address. -/
abbrev Heap := List (List VMValue)

/-- Heap `allocArray(size, initialValues?)` from heap.ts for the way the
current VM calls it: the VM passes the `ALLOC_ARR` type token as the second
argument, a `Token` object without numeric indices, so `initialValues[i]`
is always undefined and every element is filled with the default
`createInt(0)` — regardless of the element type.  Returns the new address
(the previous heap length).  A negative requested size would make
`new Array(size)` throw a JS RangeError before this point; the caller
guards for that case. -/
def Heap.allocArray (h : Heap) (size : ℕ) : ℕ × Heap :=
  (List.length h, List.append h [List.replicate size (createInt 0)])

/-- Heap `load(address, index)` from heap.ts; no checks (Guardian's job). -/
def Heap.load (h : Heap) (address : ℕ) (index : ℕ) : VMValue :=
  ((h.getD address []).getD index (createInt 0))

/-- Heap `store(address, index, value)` from heap.ts; no checks. -/
def Heap.store (h : Heap) (address : ℕ) (index : ℕ) (v : VMValue) : Heap :=
  h.set address ((h.getD address []).set index v)

/-- Bytecode instruction, from `src/core/isa/opcodes.ts` together with the
operand conventions of `src/core/isa/instructions.ts`: `push` carries a
full value, `load`/`store` a slot index, jumps an absolute address,
`popN` a count, `allocArr` the element data-type token, `reserve` a slot
count. -/
inductive Instr where
  | push (operand : VMValue)
  | pop
  | popN (count : ℕ)
  | dup
  | swap
  | add | sub | mul | div | percent
  | negate
  | not
  | print
  | load (slot : ℕ)
  | store (slot : ℕ)
  | eq | neq | lt | gt | lte | gte
  | jump (target : ℕ)
  | jumpIfFalse (target : ℕ)
  | jumpIfFalsePeek (target : ℕ)
  | jumpIfTruePeek (target : ℕ)
  | allocArr (dataType : Token)
  | loadIdx
  | storeIdx
  | reserve (count : ℕ)
deriving DecidableEq, Repr

/-- Complete VM state: instruction pointer, unified stack, base pointer
(0 in the core) and heap, as in the `VirtualMachine` class fields. -/
structure VMState where
  ip : ℕ
  stack : VMStack
  bp : ℕ
  heap : Heap

/-- Result of executing one instruction: a successor state, a halt with the
program result, or a raised runtime error carrying the state observable at
the moment of the throw. -/
inductive StepResult where
  | next (st : VMState)
  | halt (value : Option VMValue)
  | fail (err : RtErr) (st : VMState)

/-- Shared body of the `ADD`/`SUB`/`MUL` cases of `VirtualMachine.run`:
pop right then left, check both initialized (left first, as in the source),
require both numeric, push `createInt` of the combined payload. -/
def binArith (st : VMState) (f : ℚ → ℚ → ℚ) : StepResult :=
  match st.stack.pop with
  | .error e => .fail e st
  | .ok (right, s1) =>
    match s1.pop with
    | .error e => .fail e { st with stack := s1 }
    | .ok (left, s2) =>
      let st2 : VMState := { st with stack := s2 }
      match checkInitialized left with
      | .error e => .fail e st2
      | .ok _ =>
        match checkInitialized right with
        | .error e => .fail e st2
        | .ok _ =>
          if !left.isNumeric || !right.isNumeric then
            .fail .operandsMustBeNumbers st2
          else
            match s2.push (createInt (f left.num right.num)) with
            | .error e => .fail e st2
            | .ok s3 => .next { st with stack := s3 }

/-- Shared body of the `LT`/`GT`/`LTE`/`GTE` cases of `VirtualMachine.run`:
pop right then left, check initialized, require numeric, push the boolean
comparison of the payloads. -/
def binCompare (st : VMState) (f : ℚ → ℚ → Bool) : StepResult :=
  match st.stack.pop with
  | .error e => .fail e st
  | .ok (right, s1) =>
    match s1.pop with
    | .error e => .fail e { st with stack := s1 }
    | .ok (left, s2) =>
      let st2 : VMState := { st with stack := s2 }
      match checkInitialized left with
      | .error e => .fail e st2
      | .ok _ =>
        match checkInitialized right with
        | .error e => .fail e st2
        | .ok _ =>
          if !left.isNumeric || !right.isNumeric then
            .fail .operandsMustBeNumbers st2
          else
            match s2.push (createBool (f left.num right.num)) with
            | .error e => .fail e st2
            | .ok s3 => .next { st with stack := s3 }

/-- Shared body of the `EQ`/`NEQ` cases: pop right then left, check
initialized, push the (possibly negated) strict-equality comparison. -/
def binEquality (st : VMState) (negated : Bool) : StepResult :=
  match st.stack.pop with
  | .error e => .fail e st
  | .ok (right, s1) =>
    match s1.pop with
    | .error e => .fail e { st with stack := s1 }
    | .ok (left, s2) =>
      let st2 : VMState := { st with stack := s2 }
      match checkInitialized left with
      | .error e => .fail e st2
      | .ok _ =>
        match checkInitialized right with
        | .error e => .fail e st2
        | .ok _ =>
          match s2.push (createBool (xor (jsStrictEq left right) negated)) with
          | .error e => .fail e st2
          | .ok s3 => .next { st with stack := s3 }

/-- Shared body of the `DIV`/`PERCENT` cases: like `binArith` but failing
with the division-by-zero error when the right payload is `0` (checked
after the initialization and numeric guards, as in the source). -/
def binDivLike (st : VMState) (f : ℚ → ℚ → ℚ) : StepResult :=
  match st.stack.pop with
  | .error e => .fail e st
  | .ok (right, s1) =>
    match s1.pop with
    | .error e => .fail e { st with stack := s1 }
    | .ok (left, s2) =>
      let st2 : VMState := { st with stack := s2 }
      match checkInitialized left with
      | .error e => .fail e st2
      | .ok _ =>
        match checkInitialized right with
        | .error e => .fail e st2
        | .ok _ =>
          if !left.isNumeric || !right.isNumeric then
            .fail .operandsMustBeNumbers st2
          else if right.num = 0 then
            .fail .divisionByZero st2
          else
            match s2.push (createInt (f left.num right.num)) with
            | .error e => .fail e st2
            | .ok s3 => .next { st with stack := s3 }

/-- Pop `n` values one by one (`POP_N` loops `pop()` in the source). -/
def popLoop (s : VMStack) : ℕ → Except RtErr VMStack
  | 0 => .ok s
  | n + 1 =>
    match s.pop with
    | .error e => .error e
    | .ok (_, s1) => popLoop s1 n

/-- One iteration of `VirtualMachine.run` from the current
virtual-machine.ts: fetch at `ip`, increment `ip`, execute the opcode's
case.  When `ip` has run past the bytecode the loop exits and the program
result is the top of stack if `sp > bp`, else none. -/
def step (instructions : List Instr) (st0 : VMState) : StepResult :=
  match instructions.get? st0.ip with
  | none =>
    .halt (if st0.bp < st0.stack.sp then some (st0.stack.data (st0.stack.sp - 1)) else none)
  | some instruction =>
    let st : VMState := { st0 with ip := st0.ip + 1 }
    match instruction with
    | .reserve n => .next { st with stack := { st.stack with sp := st.stack.sp + n } }
    | .push v =>
      match st.stack.push v with
      | .error e => .fail e st
      | .ok s1 => .next { st with stack := s1 }
    | .pop =>
      match st.stack.pop with
      | .error e => .fail e st
      | .ok (_, s1) => .next { st with stack := s1 }
    | .popN n =>
      match popLoop st.stack n with
      | .error e => .fail e st
      | .ok s1 => .next { st with stack := s1 }
    | .dup =>
      match st.stack.peek with
      | .error e => .fail e st
      | .ok v =>
        match st.stack.push v with
        | .error e => .fail e st
        | .ok s1 => .next { st with stack := s1 }
    | .swap =>
      match st.stack.pop with
      | .error e => .fail e st
      | .ok (a, s1) =>
        match s1.pop with
        | .error e => .fail e { st with stack := s1 }
        | .ok (b, s2) =>
          match s2.push a with
          | .error e => .fail e { st with stack := s2 }
          | .ok s3 =>
            match s3.push b with
            | .error e => .fail e { st with stack := s3 }
            | .ok s4 => .next { st with stack := s4 }
    | .add => binArith st ratAdd
    | .sub => binArith st ratSub
    | .mul => binArith st ratMul
    | .div => binDivLike st ratDiv
    | .percent => binDivLike st jsRem
    | .negate =>
      match st.stack.pop with
      | .error e => .fail e st
      | .ok (value, s1) =>
        let st1 : VMState := { st with stack := s1 }
        match checkInitialized value with
        | .error e => .fail e st1
        | .ok _ =>
          if !value.isNumeric then .fail .operandsMustBeNumbers st1
          else
            match s1.push (createInt (Rat.neg value.num)) with
            | .error e => .fail e st1
            | .ok s2 => .next { st with stack := s2 }
    | .not =>
      match st.stack.pop with
      | .error e => .fail e st
      | .ok (value, s1) =>
        let st1 : VMState := { st with stack := s1 }
        match checkInitialized value with
        | .error e => .fail e st1
        | .ok _ =>
          match s1.push (createBool (jsNot value)) with
          | .error e => .fail e st1
          | .ok s2 => .next { st with stack := s2 }
    | .print =>
      match st.stack.peek with
      | .error e => .fail e st
      | .ok value =>
        match checkInitialized value with
        | .error e => .fail e st
        | .ok _ => .next st
    | .load slot =>
      match st.stack.load st.bp slot with
      | .error e => .fail e st
      | .ok v =>
        match st.stack.push v with
        | .error e => .fail e st
        | .ok s1 => .next { st with stack := s1 }
    | .store slot =>
      match st.stack.peek with
      | .error e => .fail e st
      | .ok valueToStore =>
        match checkInitialized valueToStore with
        | .error e => .fail e st
        | .ok _ =>
          match st.stack.store st.bp slot valueToStore with
          | .error e => .fail e st
          | .ok s1 => .next { st with stack := s1 }
    | .eq => binEquality st false
    | .neq => binEquality st true
    | .lt => binCompare st (fun l r => l < r)
    | .gt => binCompare st (fun l r => r < l)
    | .lte => binCompare st (fun l r => l ≤ r)
    | .gte => binCompare st (fun l r => r ≤ l)
    | .jump a => .next { st with ip := a }
    | .jumpIfFalse a =>
      match st.stack.pop with
      | .error e => .fail e st
      | .ok (value, s1) =>
        let st1 : VMState := { st with stack := s1 }
        match checkInitialized value with
        | .error e => .fail e st1
        | .ok _ =>
          match value with
          | .bool b => if b = false then .next { st1 with ip := a } else .next st1
          | _ => .fail .conditionMustBeBool st1
    | .jumpIfFalsePeek a =>
      match st.stack.peek with
      | .error e => .fail e st
      | .ok value =>
        match checkInitialized value with
        | .error e => .fail e st
        | .ok _ =>
          match value with
          | .bool b => if b = false then .next { st with ip := a } else .next st
          | _ => .fail .conditionMustBeBool st
    | .jumpIfTruePeek a =>
      match st.stack.peek with
      | .error e => .fail e st
      | .ok value =>
        match checkInitialized value with
        | .error e => .fail e st
        | .ok _ =>
          match value with
          | .bool b => if b = true then .next { st with ip := a } else .next st
          | _ => .fail .conditionMustBeBool st
    | .allocArr _ =>
      match st.stack.pop with
      | .error e => .fail e st
      | .ok (sizeVal, s1) =>
        let st1 : VMState := { st with stack := s1 }
        match checkInitialized sizeVal with
        | .error e => .fail e st1
        | .ok _ =>
          match sizeVal with
          | .int n =>
            if n < 0 then .fail .invalidArrayLength st1
            else
              let (address, h1) := st.heap.allocArray n.toNat
              match s1.push (createPointer address) with
              | .error e => .fail e { st1 with heap := h1 }
              | .ok s2 => .next { st with stack := s2, heap := h1 }
          | _ => .fail .arraySizeMustBeInt st1
    | .loadIdx =>
      match st.stack.pop with
      | .error e => .fail e st
      | .ok (indexVal, s1) =>
        match s1.pop with
        | .error e => .fail e { st with stack := s1 }
        | .ok (ptrVal, s2) =>
          let st2 : VMState := { st with stack := s2 }
          match checkInitialized indexVal with
          | .error e => .fail e st2
          | .ok _ =>
            match checkInitialized ptrVal with
            | .error e => .fail e st2
            | .ok _ =>
              match ptrVal with
              | .pointer address =>
                match indexVal with
                | .int index =>
                  match checkHeapAddress address st.heap.length with
                  | .error e => .fail e st2
                  | .ok _ =>
                    let arr := st.heap.getD address []
                    match checkArrayBounds arr.length index with
                    | .error e => .fail e st2
                    | .ok _ =>
                      match s2.push (st.heap.load address index.toNat) with
                      | .error e => .fail e st2
                      | .ok s3 => .next { st with stack := s3 }
                | _ => .fail .arrayIndexMustBeInt st2
              | _ => .fail .loadIdxNeedsPointer st2
    | .storeIdx =>
      match st.stack.pop with
      | .error e => .fail e st
      | .ok (valueToStore, s1) =>
        match s1.pop with
        | .error e => .fail e { st with stack := s1 }
        | .ok (indexVal, s2) =>
          match s2.pop with
          | .error e => .fail e { st with stack := s2 }
          | .ok (ptrVal, s3) =>
            let st3 : VMState := { st with stack := s3 }
            match checkInitialized valueToStore with
            | .error e => .fail e st3
            | .ok _ =>
              match checkInitialized indexVal with
              | .error e => .fail e st3
              | .ok _ =>
                match checkInitialized ptrVal with
                | .error e => .fail e st3
                | .ok _ =>
                  match ptrVal with
                  | .pointer address =>
                    match indexVal with
                    | .int index =>
                      match checkHeapAddress address st.heap.length with
                      | .error e => .fail e st3
                      | .ok _ =>
                        let arr := st.heap.getD address []
                        match checkArrayBounds arr.length index with
                        | .error e => .fail e st3
                        | .ok _ =>
                          let h1 := st.heap.store address index.toNat valueToStore
                          match s3.push valueToStore with
                          | .error e => .fail e { st3 with heap := h1 }
                          | .ok s4 => .next { st with stack := s4, heap := h1 }
                    | _ => .fail .arrayIndexMustBeInt st3
                  | _ => .fail .storeIdxNeedsPointer st3

/-- Result of driving the stepper with a fuel bound: normal completion with
the program result (`runToEnd`), a runtime error with the state observable
at the throw, or fuel exhaustion. -/
inductive RunResult where
  | done (value : Option VMValue)
  | failed (err : RtErr) (st : VMState)
  | timeout (st : VMState)

/-- Drive `step` for at most `fuel` instructions, as `runToEnd` drives the
generator until it is done. -/
def run (instructions : List Instr) : ℕ → VMState → RunResult
  | 0, st => .timeout st
  | fuel + 1, st =>
    match step instructions st with
    | .next st1 => run instructions fuel st1
    | .halt v => .done v
    | .fail e st1 => .failed e st1

/-- Fresh VM state: `ip = 0`, `bp = 0`, empty stack and heap. -/
def initState : VMState :=
  { ip := 0, stack := { data := fun _ => .uninit, sp := 0 }, bp := 0, heap := [] }

/-- Program-result projection of a run outcome. -/
def RunResult.value : RunResult → Option (Option VMValue)
  | .done v => some v
  | _ => none

/-- Error projection of a run outcome. -/
def RunResult.errOf : RunResult → Option RtErr
  | .failed e _ => some e
  | _ => none

/-- Heap at the moment of failure, when the outcome is a runtime error. -/
def RunResult.failHeap : RunResult → Option Heap
  | .failed _ st => some st.heap
  | _ => none

/-- Keyword table of the lexer, from the constructor of
`src/lang/lexer/lexer.ts` (`this.keywords = new Map([...])`), with its nine
entries in source order. -/
def lexerKeywords : List (String × TokenType) :=
  [ ("int", .kwInt), ("double", .kwDouble), ("bool", .kwBool),
    ("true", .kwTrue), ("false", .kwFalse),
    ("if", .kwIf), ("else", .kwElse),
    ("for", .kwFor), ("while", .kwWhile) ]

/-- Token kind chosen by `Lexer.identifier()` after scanning an
identifier-shaped lexeme: `this.keywords.get(text) || TokenType.IDENTIFIER`. -/
def identifierTokenType (text : String) : TokenType :=
  (lexerKeywords.lookup text).getD .identifier

/-- Literal payload of an AST literal node: the parser stores a JS number
for `INT_LITERAL`/`DOUBLE_LITERAL` tokens and a boolean for `true`/`false`. -/
inductive LitValue where
  | num (value : ℚ)
  | bool (value : Bool)
deriving DecidableEq, Repr

/-- Rendering of a literal payload inside a template string
(`${declaredSize}`): booleans print as `true`/`false`.  Integral numbers
print as JS prints them; the shortest-roundtrip decimal JS would print for
a non-integral double is approximated by the rational's own rendering. -/
def LitValue.render : LitValue → String
  | .num q => if q.den = 1 then toString q.num else toString q
  | .bool b => if b then "true" else "false"

/-- Structured compile errors: each constructor corresponds to one
`CompileError` (or plain `Error`) thrown by the code generator or symbol
table. -/
inductive CErr where
  | undefinedVariable (name : String)
  | duplicateVariable (name : String)
  | invalidAssignTarget
  | initializerTooLarge (initializerSize : ℕ) (declaredSize : LitValue)
  | implicitSizeArrayNeedsInit
  | arrayNeedsInitializerList
  | breakOutsideLoop
  | continueOutsideLoop
  | unknownBinaryOp (lexeme : String)
  | unknownUnaryOp (lexeme : String)
  | unknownCompoundOp (lexeme : String)
  | unknownArrayCompoundOp (lexeme : String)
  | updateBadArgument
  | unknownAstNode (kind : String)
deriving DecidableEq, Repr

/-- Message renderer for compile errors, reproducing the strings of
codegen.ts and symbol-table.ts. -/
def CErr.message : CErr → String
  | .undefinedVariable n => s!"未定义的变量 '{n}'。"
  | .duplicateVariable n => s!"变量 '{n}' 已在当前作用域中定义。"
  | .invalidAssignTarget => "无效的赋值目标"
  | .initializerTooLarge n m =>
      let d := LitValue.render m
      s!"初始化列表的元素数量 ({n}) 超出数组大小 ({d})。"
  | .implicitSizeArrayNeedsInit => "隐式大小的数组必须被初始化。"
  | .arrayNeedsInitializerList => "数组需要一个初始化列表。"
  | .breakOutsideLoop => "break 语句只能在循环内使用。"
  | .continueOutsideLoop => "continue 语句只能在循环内使用。"
  | .unknownBinaryOp l => s!"未知的二元运算符: {l}"
  | .unknownUnaryOp l => s!"未知的一元运算符: {l}"
  | .unknownCompoundOp l => s!"未知的复合赋值运算符: {l}"
  | .unknownArrayCompoundOp l => s!"未知的数组复合赋值运算符: {l}"
  | .updateBadArgument => "Update expression must have an identifier or subscript as an argument."
  | .unknownAstNode k => s!"未知的 AST 节点类型: {k}"

instance {ε α : Type} [DecidableEq ε] [DecidableEq α] : DecidableEq (Except ε α) :=
  fun x y =>
    match x, y with
    | .ok a, .ok b => if h : a = b then .isTrue (by rw [h]) else .isFalse (by simp [h])
    | .error a, .error b => if h : a = b then .isTrue (by rw [h]) else .isFalse (by simp [h])
    | .ok _, .error _ => .isFalse (by simp)
    | .error _, .ok _ => .isFalse (by simp)

/-- Record of the symbol table: a name and the scope depth at which it was
defined, from the `Symbol` interface of symbol-table.ts. -/
structure SymEntry where
  name : String
  depth : ℕ
deriving DecidableEq, Repr

/-- Symbol table, from `src/lang/codegen/symbol-table.ts`: a flat list of
in-scope locals plus the current scope depth. -/
structure SymbolTable where
  locals : List SymEntry
  scopeDepth : ℕ
deriving DecidableEq, Repr

/-- Fresh symbol table: the constructor calls `enterScope()` once, so the
global scope has depth 1. -/
def SymbolTable.new : SymbolTable := { locals := [], scopeDepth := 1 }

/-- Operation `enterScope()`: increment the depth. -/
def SymbolTable.enterScope (t : SymbolTable) : SymbolTable :=
  { t with scopeDepth := t.scopeDepth + 1 }

/-- Operation `exitScope()`: repeatedly drop the trailing record while its
depth equals the current depth, counting the drops; then decrement the
depth.  Returns the count (for `POP_N` emission) and the new table. -/
def SymbolTable.exitScope (t : SymbolTable) : ℕ × SymbolTable :=
  let dropped := t.locals.reverse.takeWhile (fun e => e.depth = t.scopeDepth)
  let remaining := (t.locals.reverse.dropWhile (fun e => e.depth = t.scopeDepth)).reverse
  (dropped.length, { locals := remaining, scopeDepth := t.scopeDepth - 1 })

/-- Operation `define(name)`: scanning from the end, stop at the first
record of a lower depth; a record with the same name before that point is a
same-scope redefinition error.  Otherwise append `(name, depth)`. -/
def SymbolTable.define (t : SymbolTable) (name : String) : Except CErr SymbolTable :=
  if (t.locals.reverse.takeWhile (fun e => ¬ e.depth < t.scopeDepth)).any
      (fun e => e.name = name) then
    .error (.duplicateVariable name)
  else
    .ok { t with locals := t.locals ++ [⟨name, t.scopeDepth⟩] }

/-- Operation `resolve(name)`: search from the end (innermost first) and
return the absolute list index of the match — which is the runtime stack
slot — or fail. -/
def SymbolTable.resolve (t : SymbolTable) (name : String) : Except CErr ℕ :=
  match t.locals.reverse.findIdx? (fun e => e.name = name) with
  | some j => .ok (t.locals.length - 1 - j)
  | none => .error (.undefinedVariable name)

mutual

/-- Expression nodes of the AST, as consumed by the current codegen.ts and
built by the current parser.ts: literal, identifier, unary, binary,
assignment (target must be identifier or subscript, checked by the
generator), update (`isPre` is the source's prefix flag), subscript and
initializer list. -/
inductive Expr where
  | literal (value : LitValue)
  | identifier (name : Token)
  | unary (operator : Token) (right : Expr)
  | binary (left : Expr) (operator : Token) (right : Expr)
  | assignment (target : Expr) (operator : Token) (value : Expr)
  | update (operator : Token) (argument : Expr) (isPre : Bool)
  | subscript (object : Expr) (index : Expr)
  | initializerList (elements : List Expr)

/-- Statement nodes of the AST.  A for-initializer is a variable
declaration or an expression statement in the source type; it is modelled
as an arbitrary statement, which the generator visits the same way. -/
inductive Stmt where
  | exprStmt (expression : Expr)
  | block (body : List Stmt)
  | empty
  | varDeclaration (dataType : Token) (declarators : List Declarator)
  | ifStmt (condition : Expr) (thenBranch : Stmt) (elseBranch : Option Stmt)
  | whileStmt (condition : Expr) (body : Stmt)
  | forStmt (initializer : Option Stmt) (condition : Option Expr)
      (increment : Option Expr) (body : Stmt)
  | breakStmt
  | continueStmt

/-- Declarator of a variable declaration: name, optional array size
expression, optional initializer. -/
inductive Declarator where
  | mk (name : Token) (size : Option Expr) (initializer : Option Expr)

end

/-- Name token of a declarator. -/
def Declarator.name : Declarator → Token
  | .mk n _ _ => n

/-- Size expression of a declarator. -/
def Declarator.size : Declarator → Option Expr
  | .mk _ s _ => s

/-- Initializer of a declarator. -/
def Declarator.initializer : Declarator → Option Expr
  | .mk _ _ i => i

/-- Numeric reading of a literal payload: the generator's size check
compares `initializerSize > declaredSize` with JS `>`, which coerces a
boolean payload to a number. -/
def litNum : LitValue → ℚ
  | .num q => q
  | .bool b => if b then 1 else 0

/-- Per-loop compile-time context, from the `LoopContext` interface in
codegen.ts.  The source marks an unknown continue label with `-1`
(for loops); that sentinel is modelled as `none`.  `continueJumps` is
absent (`undefined`) for while loops; that is modelled as `[]`, which the
while case never reads. -/
structure LoopContext where
  breakJumps : List ℕ
  continueLabel : Option ℕ
  continueJumps : List ℕ
deriving DecidableEq, Repr

/-- Code generator state: the bytecode buffer, the symbol table and the
loop stack, per the `CodeGenerator` class fields. -/
structure CGState where
  bytecode : List Instr
  symbolTable : SymbolTable
  loopStack : List LoopContext
deriving DecidableEq, Repr

/-- Helper `emit(opcode, operand)`: append one instruction. -/
def emit (op : Instr) (s : CGState) : CGState :=
  { s with bytecode := s.bytecode ++ [op] }

/-- Helper `emitJump`: emit the jump with a placeholder target `0` and
return its index for later patching. -/
def emitJump (mk : ℕ → Instr) (s : CGState) : ℕ × CGState :=
  (s.bytecode.length, emit (mk 0) s)

/-- Overwrite the target operand of a jump-family instruction (the only
instructions `patchJump` is ever applied to). -/
def setTarget : Instr → ℕ → Instr
  | .jump _, t => .jump t
  | .jumpIfFalse _, t => .jumpIfFalse t
  | .jumpIfFalsePeek _, t => .jumpIfFalsePeek t
  | .jumpIfTruePeek _, t => .jumpIfTruePeek t
  | i, _ => i

/-- Helper `patchJump(jumpLocation)`: point the placeholder at
`jumpLocation` to the current end of the bytecode. -/
def patchJump (jumpLocation : ℕ) (s : CGState) : CGState :=
  { s with
    bytecode := s.bytecode.set jumpLocation
      (setTarget (s.bytecode.getD jumpLocation .pop) s.bytecode.length) }

/-- Patch a list of recorded jump indices in order. -/
def patchAll (jumps : List ℕ) (s : CGState) : CGState :=
  jumps.foldl (fun acc j => patchJump j acc) s

/-- Opcode chosen by visitUpdateExpression:
`expr.operator.type === TokenType.INC ? OpCode.ADD : OpCode.SUB`. -/
def updateOpcode (operator : Token) : Instr :=
  if operator.type = .inc then .add else .sub

mutual

/-- Expression compiler: the expression cases of `CodeGenerator.visit`
(visitLiteral, visitIdentifier, visitUnaryExpression,
visitBinaryExpression with the short-circuit special cases,
visitAssignmentExpression, visitUpdateExpression,
visitSubscriptExpression), translated case by case from codegen.ts. -/
def genExpr : Expr → CGState → Except CErr CGState
  | .literal (.num q), s =>
    if q.den = 1 then .ok (emit (.push (createInt q)) s)
    else .ok (emit (.push (createDouble q)) s)
  | .literal (.bool b), s => .ok (emit (.push (createBool b)) s)
  | .identifier name, s =>
    match s.symbolTable.resolve name.lexeme with
    | .error e => .error e
    | .ok index => .ok (emit (.load index) s)
  | .unary operator right, s =>
    match genExpr right s with
    | .error e => .error e
    | .ok s1 =>
      match operator.type with
      | .minus => .ok (emit .negate s1)
      | .logicalNot => .ok (emit .not s1)
      | _ => .error (.unknownUnaryOp operator.lexeme)
  | .binary left operator right, s =>
    if operator.type = .logicalAnd then
      match genExpr left s with
      | .error e => .error e
      | .ok s1 =>
        let (endJump, s2) := emitJump .jumpIfFalsePeek s1
        match genExpr right (emit .pop s2) with
        | .error e => .error e
        | .ok s4 => .ok (patchJump endJump s4)
    else if operator.type = .logicalOr then
      match genExpr left s with
      | .error e => .error e
      | .ok s1 =>
        let (endJump, s2) := emitJump .jumpIfTruePeek s1
        match genExpr right (emit .pop s2) with
        | .error e => .error e
        | .ok s4 => .ok (patchJump endJump s4)
    else
      match genExpr left s with
      | .error e => .error e
      | .ok s1 =>
        match genExpr right s1 with
        | .error e => .error e
        | .ok s2 =>
          match operator.type with
          | .plus => .ok (emit .add s2)
          | .minus => .ok (emit .sub s2)
          | .star => .ok (emit .mul s2)
          | .slash => .ok (emit .div s2)
          | .percent => .ok (emit .percent s2)
          | .eq => .ok (emit .eq s2)
          | .neq => .ok (emit .neq s2)
          | .lt => .ok (emit .lt s2)
          | .gt => .ok (emit .gt s2)
          | .lte => .ok (emit .lte s2)
          | .gte => .ok (emit .gte s2)
          | _ => .error (.unknownBinaryOp operator.lexeme)
  | .assignment target operator value, s =>
    match target with
    | .identifier name =>
      match s.symbolTable.resolve name.lexeme with
      | .error e => .error e
      | .ok index =>
        if operator.type = .assign then
          match genExpr value s with
          | .error e => .error e
          | .ok s1 => .ok (emit (.store index) s1)
        else
          match genExpr value (emit (.load index) s) with
          | .error e => .error e
          | .ok s1 =>
            match operator.type with
            | .plusAssign => .ok (emit (.store index) (emit .add s1))
            | .minusAssign => .ok (emit (.store index) (emit .sub s1))
            | .starAssign => .ok (emit (.store index) (emit .mul s1))
            | .slashAssign => .ok (emit (.store index) (emit .div s1))
            | .percentAssign => .ok (emit (.store index) (emit .percent s1))
            | _ => .error (.unknownCompoundOp operator.lexeme)
    | .subscript object index =>
      if operator.type = .assign then
        match genExpr object s with
        | .error e => .error e
        | .ok s1 =>
          match genExpr index s1 with
          | .error e => .error e
          | .ok s2 =>
            match genExpr value s2 with
            | .error e => .error e
            | .ok s3 => .ok (emit .storeIdx s3)
      else
        match genExpr object s with
        | .error e => .error e
        | .ok s1 =>
          match genExpr index s1 with
          | .error e => .error e
          | .ok s2 =>
            match genExpr object s2 with
            | .error e => .error e
            | .ok s3 =>
              match genExpr index s3 with
              | .error e => .error e
              | .ok s4 =>
                match genExpr value (emit .loadIdx s4) with
                | .error e => .error e
                | .ok s5 =>
                  match operator.type with
                  | .plusAssign => .ok (emit .storeIdx (emit .add s5))
                  | .minusAssign => .ok (emit .storeIdx (emit .sub s5))
                  | .starAssign => .ok (emit .storeIdx (emit .mul s5))
                  | .slashAssign => .ok (emit .storeIdx (emit .div s5))
                  | .percentAssign => .ok (emit .storeIdx (emit .percent s5))
                  | _ => .error (.unknownArrayCompoundOp operator.lexeme)
    | _ => .error .invalidAssignTarget
  | .update operator argument isPre, s =>
    match argument with
    | .identifier name =>
      match s.symbolTable.resolve name.lexeme with
      | .error e => .error e
      | .ok index =>
        if isPre then
          .ok (emit (.store index)
            (emit (updateOpcode operator) (emit (.push (createInt 1)) (emit (.load index) s))))
        else
          .ok (emit .pop (emit (.store index)
            (emit (updateOpcode operator) (emit (.push (createInt 1)) (emit .dup (emit (.load index) s))))))
    | .subscript object index =>
      if isPre then
        match genExpr object s with
        | .error e => .error e
        | .ok s1 =>
          match genExpr index s1 with
          | .error e => .error e
          | .ok s2 =>
            match genExpr object s2 with
            | .error e => .error e
            | .ok s3 =>
              match genExpr index s3 with
              | .error e => .error e
              | .ok s4 =>
                .ok (emit .storeIdx
                  (emit (updateOpcode operator) (emit (.push (createInt 1)) (emit .loadIdx s4))))
      else
        match genExpr object s with
        | .error e => .error e
        | .ok s1 =>
          match genExpr index s1 with
          | .error e => .error e
          | .ok s2 =>
            match genExpr object (emit .loadIdx s2) with
            | .error e => .error e
            | .ok s3 =>
              match genExpr index s3 with
              | .error e => .error e
              | .ok s4 =>
                match genExpr object s4 with
                | .error e => .error e
                | .ok s5 =>
                  match genExpr index s5 with
                  | .error e => .error e
                  | .ok s6 =>
                    .ok (emit .pop (emit .storeIdx
                      (emit (updateOpcode operator) (emit (.push (createInt 1)) (emit .loadIdx s6)))))
    | _ => .error .updateBadArgument
  | .subscript object index, s =>
    match genExpr object s with
    | .error e => .error e
    | .ok s1 =>
      match genExpr index s1 with
      | .error e => .error e
      | .ok s2 => .ok (emit .loadIdx s2)
  | .initializerList _, _ => .error (.unknownAstNode "InitializerList")

/-- Statement compiler: the statement cases of `CodeGenerator.visit`
(visitBlockStatement, visitVarDeclaration, visitIfStatement,
visitWhileStatement, visitForStatement, visitBreakStmt, visitContinueStmt,
visitExpressionStatement), translated from codegen.ts. -/
def genStmt : Stmt → CGState → Except CErr CGState
  | .exprStmt expression, s =>
    match genExpr expression s with
    | .error e => .error e
    | .ok s1 => .ok (emit .pop s1)
  | .block body, s =>
    match genStmts body { s with symbolTable := s.symbolTable.enterScope } with
    | .error e => .error e
    | .ok s1 =>
      let (numLocals, table) := s1.symbolTable.exitScope
      let s2 : CGState := { s1 with symbolTable := table }
      if 0 < numLocals then .ok (emit (.popN numLocals) s2) else .ok s2
  | .empty, s => .ok s
  | .varDeclaration dataType declarators, s => genDecls dataType declarators s
  | .ifStmt condition thenBranch elseBranch, s =>
    match genExpr condition s with
    | .error e => .error e
    | .ok s1 =>
      let (thenJump, s2) := emitJump .jumpIfFalse s1
      match genStmt thenBranch s2 with
      | .error e => .error e
      | .ok s3 =>
        match elseBranch with
        | none => .ok (patchJump thenJump s3)
        | some elseB =>
          let (elseJump, s4) := emitJump .jump s3
          match genStmt elseB (patchJump thenJump s4) with
          | .error e => .error e
          | .ok s5 => .ok (patchJump elseJump s5)
  | .whileStmt condition body, s =>
    let loopStart := s.bytecode.length
    let ctx : LoopContext :=
      { breakJumps := [], continueLabel := some loopStart, continueJumps := [] }
    match genExpr condition { s with loopStack := ctx :: s.loopStack } with
    | .error e => .error e
    | .ok s1 =>
      let (exitJump, s2) := emitJump .jumpIfFalse s1
      match genStmt body s2 with
      | .error e => .error e
      | .ok s3 =>
        let s4 := patchJump exitJump (emit (.jump loopStart) s3)
        match s4.loopStack with
        | [] => .ok s4
        | context :: rest =>
          .ok (patchAll context.breakJumps { s4 with loopStack := rest })
  | .forStmt initializer condition increment body, s =>
    let s0 : CGState := { s with symbolTable := s.symbolTable.enterScope }
    match
      (match initializer with
        | some initStmt => genStmt initStmt s0
        | none => .ok s0 : Except CErr CGState) with
    | .error e => .error e
    | .ok s1 =>
      let loopStart := s1.bytecode.length
      match
        (match condition with
          | some cond =>
            match genExpr cond s1 with
            | .error e => .error e
            | .ok sc =>
              let (j, sc1) := emitJump .jumpIfFalse sc
              .ok (some j, sc1)
          | none => .ok (none, s1) : Except CErr (Option ℕ × CGState)) with
      | .error e => .error e
      | .ok (exitJump, s2) =>
        let ctx : LoopContext :=
          { breakJumps := [], continueLabel := none, continueJumps := [] }
        match genStmt body { s2 with loopStack := ctx :: s2.loopStack } with
        | .error e => .error e
        | .ok s3 =>
          match s3.loopStack with
          | [] => .ok s3
          | context :: rest =>
            let s4 := patchAll context.continueJumps s3
            match
              (match increment with
                | some inc =>
                  match genExpr inc s4 with
                  | .error e => .error e
                  | .ok si => .ok (emit .pop si)
                | none => .ok s4 : Except CErr CGState) with
            | .error e => .error e
            | .ok s5 =>
              let s6 := emit (.jump loopStart) s5
              let s7 :=
                match exitJump with
                | some j => patchJump j s6
                | none => s6
              let s8 := patchAll context.breakJumps { s7 with loopStack := rest }
              let (numLocals, table) := s8.symbolTable.exitScope
              let s9 : CGState := { s8 with symbolTable := table }
              if 0 < numLocals then .ok (emit (.popN numLocals) s9) else .ok s9
  | .breakStmt, s =>
    match s.loopStack with
    | [] => .error .breakOutsideLoop
    | context :: rest =>
      let (jump, s1) := emitJump .jump s
      .ok { s1 with
        loopStack := { context with breakJumps := context.breakJumps ++ [jump] } :: rest }
  | .continueStmt, s =>
    match s.loopStack with
    | [] => .error .continueOutsideLoop
    | context :: rest =>
      match context.continueLabel with
      | some label => .ok (emit (.jump label) s)
      | none =>
        let (jump, s1) := emitJump .jump s
        .ok { s1 with
          loopStack :=
            { context with continueJumps := context.continueJumps ++ [jump] } :: rest }

/-- Compile a list of statements in order (the loop bodies of
visitBlockStatement and of `generate`). -/
def genStmts : List Stmt → CGState → Except CErr CGState
  | [], s => .ok s
  | stmt :: rest, s =>
    match genStmt stmt s with
    | .error e => .error e
    | .ok s1 => genStmts rest s1

/-- Compile the declarators of one variable declaration in order
(the loop of visitVarDeclaration). -/
def genDecls (dataType : Token) : List Declarator → CGState → Except CErr CGState
  | [], s => .ok s
  | .mk name size initializer :: rest, s =>
    let isArray : Bool :=
      size.isSome ||
        (match initializer with | some (.initializerList _) => true | _ => false)
    match
      (if isArray then
        match
          (match size with
            | some szExpr => genExpr szExpr s
            | none =>
              match initializer with
              | some (.initializerList elements) =>
                .ok (emit (.push (createInt elements.length)) s)
              | _ => .error .implicitSizeArrayNeedsInit : Except CErr CGState) with
        | .error e => .error e
        | .ok s1 =>
          let s2 := emit (.allocArr dataType) s1
          match initializer with
          | none => .ok s2
          | some init =>
            match init with
            | .initializerList elements =>
              match
                (match size with
                  | some (.literal v) =>
                    let declaredSize := litNum v
                    if declaredSize < (elements.length : ℚ) then
                      .error (.initializerTooLarge elements.length v)
                    else .ok ()
                  | _ => .ok () : Except CErr Unit) with
              | .error e => .error e
              | .ok _ => genInitElems 0 elements s2
            | _ => .error .arrayNeedsInitializerList
      else
        match initializer with
        | some init => genExpr init s
        | none => .ok (emit (.push createUninitialized) s) : Except CErr CGState) with
    | .error e => .error e
    | .ok sEnd =>
      match sEnd.symbolTable.define name.lexeme with
      | .error e => .error e
      | .ok table => genDecls dataType rest { sEnd with symbolTable := table }

/-- Compile the element-initialization loop of visitVarDeclaration: for
element `i`, emit `dup; push i; <element>; store_idx; pop`. -/
def genInitElems (i : ℕ) : List Expr → CGState → Except CErr CGState
  | [], s => .ok s
  | element :: rest, s =>
    match genExpr element (emit (.push (createInt i)) (emit .dup s)) with
    | .error e => .error e
    | .ok s1 => genInitElems (i + 1) rest (emit .pop (emit .storeIdx s1))

end

/-- Fresh generator state, as reset at the top of `generate`. -/
def cgInit : CGState :=
  { bytecode := [], symbolTable := SymbolTable.new, loopStack := [] }

/-- Entry point `CodeGenerator.generate(program)`: compile every statement
but the last; if the last statement is an expression statement, compile
just its expression (omitting the trailing `pop`), otherwise compile it
like any other statement.  Returns the bytecode. -/
def generate (body : List Stmt) : Except CErr (List Instr) :=
  match genStmts body.dropLast cgInit with
  | .error e => .error e
  | .ok s1 =>
    match body.getLast? with
    | none => .ok s1.bytecode
    | some lastStatement =>
      match lastStatement with
      | .exprStmt expression =>
        match genExpr expression s1 with
        | .error e => .error e
        | .ok s2 => .ok s2.bytecode
      | _ =>
        match genStmt lastStatement s1 with
        | .error e => .error e
        | .ok s2 => .ok s2.bytecode

/-- Composition of the public pipeline `compile` + `new_vm` + `run_to_end`
on a program AST, with a fuel bound for the stepper. -/
def compileAndRun (body : List Stmt) (fuel : ℕ) : Except CErr RunResult :=
  match generate body with
  | .error e => .error e
  | .ok code => .ok (run code fuel initState)

/-- Program result of a compile-and-run, when it compiles and completes. -/
def runOutcome (body : List Stmt) (fuel : ℕ) : Option (Option VMValue) :=
  match compileAndRun body fuel with
  | .ok r => r.value
  | .error _ => none

/-- Runtime error of a compile-and-run, when it compiles and fails. -/
def runError (body : List Stmt) (fuel : ℕ) : Option RtErr :=
  match compileAndRun body fuel with
  | .ok r => r.errOf
  | .error _ => none

/-- Heap at the moment of the runtime failure of a compile-and-run. -/
def runFailureHeap (body : List Stmt) (fuel : ℕ) : Option Heap :=
  match compileAndRun body fuel with
  | .ok r => r.failHeap
  | .error _ => none

/-- Compile error of a program, when code generation rejects it. -/
def compileErrorOf (body : List Stmt) : Option CErr :=
  match generate body with
  | .error e => some e
  | .ok _ => none

/-- Token builder for hand-written program ASTs (positions immaterial). -/
def tok (t : TokenType) (l : String) : Token := ⟨t, l, 0, 0⟩

/-- Identifier expression builder for hand-written program ASTs. -/
def identE (n : String) : Expr := .identifier (tok .identifier n)

/-- Integer literal expression builder for hand-written program ASTs. -/
def litI (n : ℤ) : Expr := .literal (.num (n : ℚ))

/-- Source program `int a; int b = 0; b = a;`: the assignment stores the
uninitialized sentinel read from `a` without any arithmetic touching it. -/
def uninitStoreProgram : List Stmt :=
  [ .varDeclaration (tok .kwInt "int") [ .mk (tok .identifier "a") none none ],
    .varDeclaration (tok .kwInt "int") [ .mk (tok .identifier "b") none (some (litI 0)) ],
    .exprStmt (.assignment (identE "b") (tok .assign "=") (identE "a")) ]

/-- Source program `int arr[1]; int a; arr[0] = a;`: the subscript
assignment stores the uninitialized sentinel into an array element. -/
def uninitStoreIdxProgram : List Stmt :=
  [ .varDeclaration (tok .kwInt "int") [ .mk (tok .identifier "arr") (some (litI 1)) none ],
    .varDeclaration (tok .kwInt "int") [ .mk (tok .identifier "a") none none ],
    .exprStmt (.assignment (.subscript (identE "arr") (litI 0)) (tok .assign "=")
      (identE "a")) ]

/-- Source program `bool arr[2] = {true}; arr[1];` from the repository's
own test `should correctly pad and handle bool arrays`, which expects the
result `false`. -/
def boolArrayPadProgram : List Stmt :=
  [ .varDeclaration (tok .kwBool "bool")
      [ .mk (tok .identifier "arr") (some (litI 2))
          (some (.initializerList [.literal (.bool true)])) ],
    .exprStmt (.subscript (identE "arr") (litI 1)) ]

/-- Source program `double arr[3] = {1.1}; arr[1];` from the repository's
own test `should correctly pad and handle double arrays`, which expects
the result `0.0`. -/
def doubleArrayPadProgram : List Stmt :=
  [ .varDeclaration (tok .kwDouble "double")
      [ .mk (tok .identifier "arr") (some (litI 3))
          (some (.initializerList [.literal (.num (mkRat 11 10))])) ],
    .exprStmt (.subscript (identE "arr") (litI 1)) ]

/-- Seed scenario 4 of the spec: `bool a = false && (1/0 > 0); a;` — the
right operand divides by zero if it is ever evaluated. -/
def shortCircuitAndProgram : List Stmt :=
  [ .varDeclaration (tok .kwBool "bool")
      [ .mk (tok .identifier "a") none
          (some (.binary (.literal (.bool false)) (tok .logicalAnd "&&")
            (.binary (.binary (litI 1) (tok .slash "/") (litI 0)) (tok .gt ">") (litI 0)))) ],
    .exprStmt (identE "a") ]

/-- Dual of seed scenario 4 for `||`: `bool a = true || (1/0 > 0); a;`. -/
def shortCircuitOrProgram : List Stmt :=
  [ .varDeclaration (tok .kwBool "bool")
      [ .mk (tok .identifier "a") none
          (some (.binary (.literal (.bool true)) (tok .logicalOr "||")
            (.binary (.binary (litI 1) (tok .slash "/") (litI 0)) (tok .gt ">") (litI 0)))) ],
    .exprStmt (identE "a") ]

/-- Source program `int n = 2; int arr[n] = {1, 2, 3}; arr[0];`: the array
size is the non-literal expression `n`, and the initializer list is longer
than the size's runtime value. -/
def nonLiteralSizeOverflowProgram : List Stmt :=
  [ .varDeclaration (tok .kwInt "int") [ .mk (tok .identifier "n") none (some (litI 2)) ],
    .varDeclaration (tok .kwInt "int")
      [ .mk (tok .identifier "arr") (some (identE "n"))
          (some (.initializerList [litI 1, litI 2, litI 3])) ],
    .exprStmt (.subscript (identE "arr") (litI 0)) ]

/-- Declaration `int arr[true] = {1, 2};`: the declared size is a literal
node whose payload is a boolean, not a number. -/
def boolLiteralSizeProgram : List Stmt :=
  [ .varDeclaration (tok .kwInt "int")
      [ .mk (tok .identifier "arr") (some (.literal (.bool true)))
          (some (.initializerList [litI 1, litI 2])) ] ]

/-- Test whether a compile error is the `initializer list exceeds array
size` error. -/
def CErr.isInitTooLarge : CErr → Bool
  | .initializerTooLarge _ _ => true
  | _ => false

/-- Test whether an expression is a literal node carrying a number (the
claim's notion of a numeric literal). -/
def isNumericLiteral : Expr → Bool
  | .literal (.num _) => true
  | _ => false

/-- Test whether an expression is a literal node of any payload (the
form the generator's `size.kind === 'Literal'` test actually checks). -/
def isLiteralNode : Expr → Bool
  | .literal _ => true
  | _ => false

/-- Concrete one-value stack state used by witnesses: a single boolean on
top of an otherwise fresh VM state. -/
def boolTopState (b : Bool) : VMState :=
  { ip := 0, stack := { data := fun _ => .bool b, sp := 1 }, bp := 0, heap := [] }

/-- Concrete state used by witnesses: two integer zeros on the stack. -/
def zeroPairState : VMState :=
  { ip := 0, stack := { data := fun _ => .int 0, sp := 2 }, bp := 0, heap := [] }

/-- Concrete state used by witnesses: a pointer to a one-element heap
array, an index and a value on the stack, ready for `store_idx`. -/
def storeIdxState (i : ℤ) : VMState :=
  { ip := 0,
    stack := { data := fun n => if n = 0 then .pointer 0 else if n = 1 then .int i else .int 9,
               sp := 3 },
    bp := 0,
    heap := [[.int 0]] }

/-- Concrete state used by witnesses: a pointer to a one-element heap
array and an index on the stack, ready for `load_idx`. -/
def loadIdxState (i : ℤ) : VMState :=
  { ip := 0,
    stack := { data := fun n => if n = 0 then .pointer 0 else .int i, sp := 2 },
    bp := 0,
    heap := [[.int 7]] }

/-- Source program `int a = 0; int b = 0; b = a = 5; b;`: chained
assignment, which works because `store` leaves the stored value on top. -/
def chainedAssignProgram : List Stmt :=
  [ .varDeclaration (tok .kwInt "int") [ .mk (tok .identifier "a") none (some (litI 0)) ],
    .varDeclaration (tok .kwInt "int") [ .mk (tok .identifier "b") none (some (litI 0)) ],
    .exprStmt (.assignment (identE "b") (tok .assign "=")
      (.assignment (identE "a") (tok .assign "=") (litI 5))),
    .exprStmt (identE "b") ]

/-- Source program `int arr[1]; int x = (arr[0] = 7) + 1; x;`: subscript
assignment used as an expression, which works because `store_idx` pushes
the stored value back. -/
def storeIdxExprProgram : List Stmt :=
  [ .varDeclaration (tok .kwInt "int") [ .mk (tok .identifier "arr") (some (litI 1)) none ],
    .varDeclaration (tok .kwInt "int")
      [ .mk (tok .identifier "x") none
          (some (.binary
            (.assignment (.subscript (identE "arr") (litI 0)) (tok .assign "=") (litI 7))
            (tok .plus "+") (litI 1))) ],
    .exprStmt (identE "x") ]

/-- Seed scenario 7 of the spec: `int arr[3]; arr[3] = 10;` — an
out-of-bounds write. -/
def outOfBoundsStoreProgram : List Stmt :=
  [ .varDeclaration (tok .kwInt "int") [ .mk (tok .identifier "arr") (some (litI 3)) none ],
    .exprStmt (.assignment (.subscript (identE "arr") (litI 3)) (tok .assign "=") (litI 10)) ]

/-- Source program `int a = 41; a + 1;`: the final statement is an
expression statement, so its value is the program result. -/
def lastExprProgram : List Stmt :=
  [ .varDeclaration (tok .kwInt "int") [ .mk (tok .identifier "a") none (some (litI 41)) ],
    .exprStmt (.binary (identE "a") (tok .plus "+") (litI 1)) ]

/-- Source program `{ int a = 1; }`: the final statement is a block, whose
locals are popped, so the VM halts with an empty stack and no result. -/
def blockOnlyProgram : List Stmt :=
  [ .block [ .varDeclaration (tok .kwInt "int")
      [ .mk (tok .identifier "a") none (some (litI 1)) ] ] ]

/-- Define a list of names in order, as a block body would
(`define` threaded through `Except`). -/
def defineAll : List String → SymbolTable → Except CErr SymbolTable
  | [], t => .ok t
  | y :: ys, t =>
    match t.define y with
    | .error e => .error e
    | .ok t1 => defineAll ys t1

/-!  Theorems.  Each claim of the specification audit is settled by exactly
one named theorem below (with a witness theorem when it has hypotheses).
Unnamed helper lemmas about the embedding come first. -/

theorem emit_bytecode (op : Instr) (s : CGState) :
    (emit op s).bytecode = s.bytecode ++ [op] := rfl

theorem patchJump_bytecode (j : ℕ) (s : CGState) :
    (patchJump j s).bytecode =
      s.bytecode.set j (setTarget (s.bytecode.getD j .pop) s.bytecode.length) := rfl

theorem patchJump_append (b0 t : List Instr) (j : ℕ) (s : CGState)
    (hb : s.bytecode = b0 ++ t) (hj : b0.length ≤ j) :
    (patchJump j s).bytecode =
      b0 ++ t.set (j - b0.length)
        (setTarget (t.getD (j - b0.length) .pop) (b0.length + t.length)) := by
  rw [patchJump_bytecode, hb, List.set_append_right _ _ hj,
    List.getD_append_right _ _ _ _ hj, List.length_append]

theorem ext_self (s : CGState) : ∃ t, s.bytecode = s.bytecode ++ t :=
  ⟨[], (List.append_nil _).symm⟩

theorem ext_emit (op : Instr) (s : CGState) :
    ∃ t, (emit op s).bytecode = s.bytecode ++ t := ⟨[op], rfl⟩

theorem ext_trans {b : List Instr} {s1 s2 : CGState}
    (h1 : ∃ t, s1.bytecode = b ++ t) (h2 : ∃ t, s2.bytecode = s1.bytecode ++ t) :
    ∃ t, s2.bytecode = b ++ t := by
  obtain ⟨t1, ht1⟩ := h1
  obtain ⟨t2, ht2⟩ := h2
  exact ⟨t1 ++ t2, by rw [ht2, ht1, List.append_assoc]⟩

theorem ext_patch {b : List Instr} (j : ℕ) (s : CGState)
    (h : ∃ t, s.bytecode = b ++ t) (hj : b.length ≤ j) :
    ∃ t, (patchJump j s).bytecode = b ++ t := by
  obtain ⟨t, ht⟩ := h
  exact ⟨_, patchJump_append b t j s ht hj⟩

/-- Monotonicity of the expression compiler: `genExpr` only appends to the
bytecode buffer (its internal patches only rewrite its own placeholder
jumps, which lie beyond the inherited code). -/
theorem genExpr_extends (e : Expr) (s s' : CGState) (h : genExpr e s = .ok s') :
    ∃ t, s'.bytecode = s.bytecode ++ t := by
  match e with
  | .literal v =>
    match v with
    | .num q =>
      simp only [genExpr] at h
      split at h <;> (cases h; exact ext_emit _ _)
    | .bool b =>
      simp only [genExpr] at h
      cases h; exact ext_emit _ _
  | .identifier name =>
    simp only [genExpr] at h
    split at h
    · exact Except.noConfusion h
    · cases h; exact ext_emit _ _
  | .unary op right =>
    simp only [genExpr] at h
    split at h
    · exact Except.noConfusion h
    · rename_i s1 hsub
      have ih := genExpr_extends right s s1 hsub
      split at h <;> (try cases h) <;> exact ext_trans ih (ext_emit _ _)
  | .binary left op right =>
    simp only [genExpr] at h
    split at h
    · -- logical AND
      split at h
      · exact Except.noConfusion h
      · rename_i s1 hL
        have ihL := genExpr_extends left s s1 hL
        split at h
        · exact Except.noConfusion h
        · rename_i s4 hR
          have ihR := genExpr_extends right _ s4 hR
          cases h
          have c2 : ∃ t, (emit .pop (emitJump .jumpIfFalsePeek s1).2).bytecode
              = s.bytecode ++ t :=
            ext_trans (ext_trans ihL (ext_emit _ _)) (ext_emit _ _)
          refine ext_patch _ _ (ext_trans c2 ihR) ?_
          obtain ⟨tL, htL⟩ := ihL
          simp [emitJump, htL]
    · split at h
      · -- logical OR
        split at h
        · exact Except.noConfusion h
        · rename_i s1 hL
          have ihL := genExpr_extends left s s1 hL
          split at h
          · exact Except.noConfusion h
          · rename_i s4 hR
            have ihR := genExpr_extends right _ s4 hR
            cases h
            have c2 : ∃ t, (emit .pop (emitJump .jumpIfTruePeek s1).2).bytecode
                = s.bytecode ++ t :=
              ext_trans (ext_trans ihL (ext_emit _ _)) (ext_emit _ _)
            refine ext_patch _ _ (ext_trans c2 ihR) ?_
            obtain ⟨tL, htL⟩ := ihL
            simp [emitJump, htL]
      · -- ordinary binary operator
        split at h
        · exact Except.noConfusion h
        · rename_i s1 hL
          have ihL := genExpr_extends left s s1 hL
          split at h
          · exact Except.noConfusion h
          · rename_i s2 hR
            have ih2 := ext_trans ihL (genExpr_extends right s1 s2 hR)
            split at h <;> (try cases h) <;> exact ext_trans ih2 (ext_emit _ _)
  | .assignment target op value =>
    unfold genExpr at h
    split at h
    · -- identifier target
      split at h
      · exact Except.noConfusion h
      · split at h
        · split at h
          · exact Except.noConfusion h
          · rename_i s1 hV
            cases h
            exact ext_trans (genExpr_extends value s s1 hV) (ext_emit _ _)
        · split at h
          · exact Except.noConfusion h
          · rename_i s1 hV
            have ih := ext_trans (ext_emit _ s) (genExpr_extends value _ s1 hV)
            split at h <;> (try cases h) <;>
              exact ext_trans (ext_trans ih (ext_emit _ _)) (ext_emit _ _)
    · -- subscript target
      split at h
      · split at h
        · exact Except.noConfusion h
        · rename_i s1 hO
          have ih1 := genExpr_extends _ s s1 hO
          split at h
          · exact Except.noConfusion h
          · rename_i s2 hI
            have ih2 := ext_trans ih1 (genExpr_extends _ s1 s2 hI)
            split at h
            · exact Except.noConfusion h
            · rename_i s3 hV
              have ih3 := ext_trans ih2 (genExpr_extends _ s2 s3 hV)
              cases h
              exact ext_trans ih3 (ext_emit _ _)
      · split at h
        · exact Except.noConfusion h
        · rename_i s1 hO
          have ih1 := genExpr_extends _ s s1 hO
          split at h
          · exact Except.noConfusion h
          · rename_i s2 hI
            have ih2 := ext_trans ih1 (genExpr_extends _ s1 s2 hI)
            split at h
            · exact Except.noConfusion h
            · rename_i s3 hO2
              have ih3 := ext_trans ih2 (genExpr_extends _ s2 s3 hO2)
              split at h
              · exact Except.noConfusion h
              · rename_i s4 hI2
                have ih4 := ext_trans ih3 (genExpr_extends _ s3 s4 hI2)
                split at h
                · exact Except.noConfusion h
                · rename_i s5 hV
                  have ih5 :=
                    ext_trans (ext_trans ih4 (ext_emit _ _)) (genExpr_extends _ _ s5 hV)
                  split at h <;> (try cases h) <;>
                    exact ext_trans (ext_trans ih5 (ext_emit _ _)) (ext_emit _ _)
    · exact Except.noConfusion h
  | .update op argument isPre =>
    unfold genExpr at h
    split at h
    · -- identifier argument
      split at h
      · exact Except.noConfusion h
      · split at h <;> cases h
        · exact ext_trans (ext_trans (ext_trans (ext_emit _ _) (ext_emit _ _))
            (ext_emit _ _)) (ext_emit _ _)
        · exact ext_trans (ext_trans (ext_trans (ext_trans (ext_trans (ext_emit _ _)
            (ext_emit _ _)) (ext_emit _ _)) (ext_emit _ _)) (ext_emit _ _)) (ext_emit _ _)
    · -- subscript argument
      split at h
      · -- isPre
        split at h
        · exact Except.noConfusion h
        · rename_i s1 hO
          have ih1 := genExpr_extends _ s s1 hO
          split at h
          · exact Except.noConfusion h
          · rename_i s2 hI
            have ih2 := ext_trans ih1 (genExpr_extends _ s1 s2 hI)
            split at h
            · exact Except.noConfusion h
            · rename_i s3 hO2
              have ih3 := ext_trans ih2 (genExpr_extends _ s2 s3 hO2)
              split at h
              · exact Except.noConfusion h
              · rename_i s4 hI2
                have ih4 := ext_trans ih3 (genExpr_extends _ s3 s4 hI2)
                cases h
                exact ext_trans (ext_trans (ext_trans (ext_trans ih4 (ext_emit _ _))
                  (ext_emit _ _)) (ext_emit _ _)) (ext_emit _ _)
      · -- postfix
        split at h
        · exact Except.noConfusion h
        · rename_i s1 hO
          have ih1 := genExpr_extends _ s s1 hO
          split at h
          · exact Except.noConfusion h
          · rename_i s2 hI
            have ih2 := ext_trans ih1 (genExpr_extends _ s1 s2 hI)
            split at h
            · exact Except.noConfusion h
            · rename_i s3 hO2
              have ih3 :=
                ext_trans (ext_trans ih2 (ext_emit _ _)) (genExpr_extends _ _ s3 hO2)
              split at h
              · exact Except.noConfusion h
              · rename_i s4 hI2
                have ih4 := ext_trans ih3 (genExpr_extends _ s3 s4 hI2)
                split at h
                · exact Except.noConfusion h
                · rename_i s5 hO3
                  have ih5 := ext_trans ih4 (genExpr_extends _ s4 s5 hO3)
                  split at h
                  · exact Except.noConfusion h
                  · rename_i s6 hI3
                    have ih6 := ext_trans ih5 (genExpr_extends _ s5 s6 hI3)
                    cases h
                    exact ext_trans (ext_trans (ext_trans (ext_trans (ext_trans ih6
                      (ext_emit _ _)) (ext_emit _ _)) (ext_emit _ _)) (ext_emit _ _))
                      (ext_emit _ _)
    · exact Except.noConfusion h
  | .subscript object index =>
    simp only [genExpr] at h
    split at h
    · exact Except.noConfusion h
    · rename_i s1 hO
      have ih1 := genExpr_extends _ s s1 hO
      split at h
      · exact Except.noConfusion h
      · rename_i s2 hI
        have ih2 := ext_trans ih1 (genExpr_extends _ s1 s2 hI)
        cases h
        exact ext_trans ih2 (ext_emit _ _)
  | .initializerList es =>
    simp only [genExpr] at h
    exact Except.noConfusion h

/-- C1: short-circuit evaluation of `L && R` and `L || R`.
(i)/(ii) The generator lowers `L && R` to `code(L); jump_if_false_peek end;
pop; code(R)` with `end` patched to the address just after `code(R)` (dually
with `jump_if_true_peek` for `||`).  (iii) At `jump_if_false_peek` with a
false top of stack, one step moves straight to the patch target — for every
possible right-operand code, so no instruction compiled from R executes, no
side effect or error of R can occur, and the expression's value is L's
(still on top).  (iv) With a true top it falls through, and the following
`pop` removes L's value, so R then computes the expression's value from the
original stack.  (v)/(vi) are the duals for `||`.  (vii) The concrete seed
programs `bool a = false && (1/0 > 0); a;` and `bool a = true || (1/0 > 0);
a;` complete without error with results `false`/`true`, although `1/0`
alone faults. -/
theorem c1_logical_and_or_short_circuit :
    (∀ (L R : Expr) (op : Token) (s s1 s4 : CGState) (cL cR : List Instr),
      op.type = .logicalAnd →
      genExpr L s = .ok s1 →
      s1.bytecode = s.bytecode ++ cL →
      genExpr R (emit .pop (emit (.jumpIfFalsePeek 0) s1)) = .ok s4 →
      s4.bytecode = s.bytecode ++ cL ++ [.jumpIfFalsePeek 0, .pop] ++ cR →
      genExpr (.binary L op R) s = .ok (patchJump s1.bytecode.length s4) ∧
      (patchJump s1.bytecode.length s4).bytecode =
        s.bytecode ++ cL ++
          (.jumpIfFalsePeek (s.bytecode.length + cL.length + 2 + cR.length)
            :: .pop :: cR) ∧
      (patchJump s1.bytecode.length s4).bytecode.length =
        s.bytecode.length + cL.length + 2 + cR.length) ∧
    (∀ (L R : Expr) (op : Token) (s s1 s4 : CGState) (cL cR : List Instr),
      op.type = .logicalOr →
      genExpr L s = .ok s1 →
      s1.bytecode = s.bytecode ++ cL →
      genExpr R (emit .pop (emit (.jumpIfTruePeek 0) s1)) = .ok s4 →
      s4.bytecode = s.bytecode ++ cL ++ [.jumpIfTruePeek 0, .pop] ++ cR →
      genExpr (.binary L op R) s = .ok (patchJump s1.bytecode.length s4) ∧
      (patchJump s1.bytecode.length s4).bytecode =
        s.bytecode ++ cL ++
          (.jumpIfTruePeek (s.bytecode.length + cL.length + 2 + cR.length)
            :: .pop :: cR) ∧
      (patchJump s1.bytecode.length s4).bytecode.length =
        s.bytecode.length + cL.length + 2 + cR.length) ∧
    (∀ (prog : List Instr) (st : VMState) (e : ℕ),
      prog.get? st.ip = some (.jumpIfFalsePeek e) →
      st.stack.sp ≠ 0 →
      st.stack.data (st.stack.sp - 1) = .bool false →
      step prog st = .next { st with ip := e }) ∧
    (∀ (prog : List Instr) (st : VMState) (e : ℕ),
      prog.get? st.ip = some (.jumpIfFalsePeek e) →
      prog.get? (st.ip + 1) = some .pop →
      st.stack.sp ≠ 0 →
      st.stack.data (st.stack.sp - 1) = .bool true →
      step prog st = .next { st with ip := st.ip + 1 } ∧
      step prog { st with ip := st.ip + 1 } =
        .next { st with ip := st.ip + 2, stack := { st.stack with sp := st.stack.sp - 1 } }) ∧
    (∀ (prog : List Instr) (st : VMState) (e : ℕ),
      prog.get? st.ip = some (.jumpIfTruePeek e) →
      st.stack.sp ≠ 0 →
      st.stack.data (st.stack.sp - 1) = .bool true →
      step prog st = .next { st with ip := e }) ∧
    (∀ (prog : List Instr) (st : VMState) (e : ℕ),
      prog.get? st.ip = some (.jumpIfTruePeek e) →
      prog.get? (st.ip + 1) = some .pop →
      st.stack.sp ≠ 0 →
      st.stack.data (st.stack.sp - 1) = .bool false →
      step prog st = .next { st with ip := st.ip + 1 } ∧
      step prog { st with ip := st.ip + 1 } =
        .next { st with ip := st.ip + 2, stack := { st.stack with sp := st.stack.sp - 1 } }) ∧
    runOutcome shortCircuitAndProgram 100 = some (some (.bool false)) ∧
    runOutcome shortCircuitOrProgram 100 = some (some (.bool true)) ∧
    (run [.push (.int 1), .push (.int 0), .div] 10 initState).errOf
      = some .divisionByZero := by
  refine ⟨?_, ?_, ?_, ?_, ?_, ?_, by decide, by decide, by decide⟩
  · intro L R op s s1 s4 cL cR hop hL hcL hR hcR
    have hout : genExpr (.binary L op R) s = .ok (patchJump s1.bytecode.length s4) := by
      simp only [genExpr, hop, eq_self_iff_true, if_true, hL, emitJump, hR]
    have hj : (s.bytecode ++ cL).length ≤ s1.bytecode.length := by
      simp [hcL]
    have hb : s4.bytecode =
        (s.bytecode ++ cL) ++ (Instr.jumpIfFalsePeek 0 :: Instr.pop :: cR) := by
      simpa [List.append_assoc] using hcR
    have hpatch := patchJump_append (s.bytecode ++ cL)
      (Instr.jumpIfFalsePeek 0 :: Instr.pop :: cR) s1.bytecode.length s4 hb hj
    have h0 : s1.bytecode.length - (s.bytecode ++ cL).length = 0 := by simp [hcL]
    rw [h0] at hpatch
    simp only [List.set_cons_zero, List.getD_cons_zero, setTarget, List.length_cons,
      List.length_append] at hpatch
    have harith : s.bytecode.length + cL.length + (cR.length + 1 + 1)
        = s.bytecode.length + cL.length + 2 + cR.length := by omega
    rw [harith] at hpatch
    refine ⟨hout, by rw [hpatch, List.append_assoc], ?_⟩
    rw [hpatch]
    simp [List.length_append]
    omega
  · intro L R op s s1 s4 cL cR hop hL hcL hR hcR
    have hout : genExpr (.binary L op R) s = .ok (patchJump s1.bytecode.length s4) := by
      simp only [genExpr, hop, reduceCtorEq, eq_self_iff_true, if_true, if_false,
        hL, emitJump, hR]
    have hj : (s.bytecode ++ cL).length ≤ s1.bytecode.length := by
      simp [hcL]
    have hb : s4.bytecode =
        (s.bytecode ++ cL) ++ (Instr.jumpIfTruePeek 0 :: Instr.pop :: cR) := by
      simpa [List.append_assoc] using hcR
    have hpatch := patchJump_append (s.bytecode ++ cL)
      (Instr.jumpIfTruePeek 0 :: Instr.pop :: cR) s1.bytecode.length s4 hb hj
    have h0 : s1.bytecode.length - (s.bytecode ++ cL).length = 0 := by simp [hcL]
    rw [h0] at hpatch
    simp only [List.set_cons_zero, List.getD_cons_zero, setTarget, List.length_cons,
      List.length_append] at hpatch
    have harith : s.bytecode.length + cL.length + (cR.length + 1 + 1)
        = s.bytecode.length + cL.length + 2 + cR.length := by omega
    rw [harith] at hpatch
    refine ⟨hout, by rw [hpatch, List.append_assoc], ?_⟩
    rw [hpatch]
    simp [List.length_append]
    omega
  · intro prog st e hi hsp htop
    simp only [step, hi, VMStack.peek, if_neg hsp, htop, checkInitialized,
      reduceCtorEq, if_false, if_true]
  · intro prog st e hi hpop hsp htop
    constructor
    · simp only [step, hi, VMStack.peek, if_neg hsp, htop, checkInitialized,
        reduceCtorEq, if_false]
    · simp only [step, hpop, VMStack.pop, if_neg hsp]
  · intro prog st e hi hsp htop
    simp only [step, hi, VMStack.peek, if_neg hsp, htop, checkInitialized,
      reduceCtorEq, if_false, if_true]
  · intro prog st e hi hpop hsp htop
    constructor
    · simp only [step, hi, VMStack.peek, if_neg hsp, htop, checkInitialized,
        reduceCtorEq, if_false]
    · simp only [step, hpop, VMStack.pop, if_neg hsp]

/-- Witness for C1: the short-circuit facts instantiated on `false && true`
compiled from a fresh generator, and on one-instruction programs with a
boolean on top of the stack. -/
theorem c1_logical_and_or_short_circuit_witness :
    genExpr (.binary (.literal (.bool false)) (tok .logicalAnd "&&")
        (.literal (.bool true))) cgInit =
      .ok (patchJump 1 (emit (.push (.bool true)) (emit .pop
        (emit (.jumpIfFalsePeek 0) (emit (.push (.bool false)) cgInit))))) ∧
    step [.jumpIfFalsePeek 3] (boolTopState false)
      = .next { boolTopState false with ip := 3 } ∧
    step [.jumpIfFalsePeek 3, .pop] (boolTopState true)
      = .next { boolTopState true with ip := 1 } ∧
    step [.jumpIfTruePeek 3] (boolTopState true)
      = .next { boolTopState true with ip := 3 } ∧
    step [.jumpIfTruePeek 3, .pop] (boolTopState false)
      = .next { boolTopState false with ip := 1 } := by
  refine ⟨?_, ?_, ?_, ?_, ?_⟩
  · exact (c1_logical_and_or_short_circuit.1 (.literal (.bool false))
      (.literal (.bool true)) (tok .logicalAnd "&&") cgInit
      (emit (.push (.bool false)) cgInit)
      (emit (.push (.bool true)) (emit .pop
        (emit (.jumpIfFalsePeek 0) (emit (.push (.bool false)) cgInit))))
      [.push (.bool false)] [.push (.bool true)]
      rfl (by decide) (by decide) (by decide) (by decide)).1
  · exact c1_logical_and_or_short_circuit.2.2.1 [.jumpIfFalsePeek 3]
      (boolTopState false) 3 rfl (by decide) rfl
  · exact (c1_logical_and_or_short_circuit.2.2.2.1 [.jumpIfFalsePeek 3, .pop]
      (boolTopState true) 3 rfl rfl (by decide) rfl).1
  · exact c1_logical_and_or_short_circuit.2.2.2.2.1 [.jumpIfTruePeek 3]
      (boolTopState true) 3 rfl (by decide) rfl
  · exact (c1_logical_and_or_short_circuit.2.2.2.2.2.1 [.jumpIfTruePeek 3, .pop]
      (boolTopState false) 3 rfl rfl (by decide) rfl).1

theorem ratTrunc_eq_floor (q : ℚ) (h : 0 ≤ q) : ratTrunc q = ⌊q⌋ := by
  rw [ratTrunc, Rat.floor_def]
  exact Int.tdiv_eq_ediv (Rat.num_nonneg.mpr h) (Int.ofNat_nonneg q.den)

theorem ratTrunc_neg (q : ℚ) : ratTrunc (-q) = -(ratTrunc q) := by
  show ((-q).num.tdiv (-q).den) = -(q.num.tdiv q.den)
  have h1 : (-q).num = -q.num := rfl
  have h2 : (-q).den = q.den := rfl
  rw [h1, h2, Int.neg_tdiv]

theorem ratTrunc_eq_ceil (q : ℚ) (h : q ≤ 0) : ratTrunc q = ⌈q⌉ := by
  have hq : 0 ≤ -q := by linarith
  have hfl : ratTrunc (-q) = ⌊-q⌋ := ratTrunc_eq_floor _ hq
  rw [ratTrunc_neg] at hfl
  have hceil : ⌈q⌉ = -⌊-q⌋ := rfl
  omega

theorem ratTrunc_nonneg (q : ℚ) (h : 0 ≤ q) : 0 ≤ ratTrunc q := by
  rw [ratTrunc_eq_floor q h]
  exact Int.floor_nonneg.mpr h

theorem ratTrunc_nonpos (q : ℚ) (h : q ≤ 0) : ratTrunc q ≤ 0 := by
  rw [ratTrunc_eq_ceil q h]
  exact Int.ceil_le.mpr (by exact_mod_cast h)

theorem num_eq_mul_den (a : ℚ) : (a.num : ℚ) = a * a.den := by
  have ha : (a.den : ℚ) ≠ 0 := by exact_mod_cast a.den_ne_zero
  have h := Rat.num_div_den a
  rw [div_eq_iff ha] at h
  exact h

theorem ratAdd_eq (a b : ℚ) : ratAdd a b = a + b := by
  have ha : (a.den : ℚ) ≠ 0 := by exact_mod_cast a.den_ne_zero
  have hb : (b.den : ℚ) ≠ 0 := by exact_mod_cast b.den_ne_zero
  rw [ratAdd, Rat.mkRat_eq_div]
  push_cast
  rw [div_eq_iff (by exact mul_ne_zero ha hb), num_eq_mul_den, num_eq_mul_den]
  ring

theorem ratSub_eq (a b : ℚ) : ratSub a b = a - b := by
  have ha : (a.den : ℚ) ≠ 0 := by exact_mod_cast a.den_ne_zero
  have hb : (b.den : ℚ) ≠ 0 := by exact_mod_cast b.den_ne_zero
  rw [ratSub, Rat.mkRat_eq_div]
  push_cast
  rw [div_eq_iff (by exact mul_ne_zero ha hb), num_eq_mul_den, num_eq_mul_den]
  ring

theorem ratMul_eq (a b : ℚ) : ratMul a b = a * b := by
  have ha : (a.den : ℚ) ≠ 0 := by exact_mod_cast a.den_ne_zero
  have hb : (b.den : ℚ) ≠ 0 := by exact_mod_cast b.den_ne_zero
  rw [ratMul, Rat.mkRat_eq_div]
  push_cast
  rw [div_eq_iff (by exact mul_ne_zero ha hb), num_eq_mul_den, num_eq_mul_den]
  ring

theorem ratDiv_eq (a b : ℚ) : ratDiv a b = a / b := by
  rcases eq_or_ne b 0 with rfl | hb
  · have h0 : (0 : ℚ).num = 0 := rfl
    rw [ratDiv, h0, mul_zero, Rat.divInt_zero, div_zero]
  · have ha : (a.den : ℚ) ≠ 0 := by exact_mod_cast a.den_ne_zero
    have hbn : (b.num : ℚ) ≠ 0 := by exact_mod_cast Rat.num_ne_zero.mpr hb
    rw [ratDiv, Rat.divInt_eq_div]
    push_cast
    rw [div_eq_div_iff (by exact mul_ne_zero ha hbn) hb, num_eq_mul_den, num_eq_mul_den]
    ring

theorem jsRem_eq (a b : ℚ) : jsRem a b = a - b * (ratTrunc (a / b) : ℚ) := by
  rw [jsRem, ratSub_eq, ratMul_eq, ratDiv_eq]

theorem jsRem_nonneg (l r : ℚ) (hr : r ≠ 0) (hl : 0 ≤ l) : 0 ≤ jsRem l r := by
  rw [jsRem_eq]
  have hcancel : r * (l / r) = l := mul_div_cancel₀ l hr
  rcases lt_or_gt_of_ne hr with hneg | hpos
  · have hq : l / r ≤ 0 := div_nonpos_of_nonneg_of_nonpos hl hneg.le
    rw [ratTrunc_eq_ceil _ hq]
    have hle : (l / r : ℚ) ≤ (⌈l / r⌉ : ℚ) := Int.le_ceil _
    nlinarith
  · have hq : 0 ≤ l / r := div_nonneg hl hpos.le
    rw [ratTrunc_eq_floor _ hq]
    have hle : ((⌊l / r⌋ : ℚ)) ≤ l / r := Int.floor_le _
    nlinarith

theorem jsRem_nonpos (l r : ℚ) (hr : r ≠ 0) (hl : l ≤ 0) : jsRem l r ≤ 0 := by
  rw [jsRem_eq]
  have hcancel : r * (l / r) = l := mul_div_cancel₀ l hr
  rcases lt_or_gt_of_ne hr with hneg | hpos
  · have hq : 0 ≤ l / r := div_nonneg_of_nonpos hl hneg.le
    rw [ratTrunc_eq_floor _ hq]
    have hle : ((⌊l / r⌋ : ℚ)) ≤ l / r := Int.floor_le _
    nlinarith
  · have hq : l / r ≤ 0 := div_nonpos_of_nonpos_of_nonneg hl hpos.le
    rw [ratTrunc_eq_ceil _ hq]
    have hle : (l / r : ℚ) ≤ (⌈l / r⌉ : ℚ) := Int.le_ceil _
    nlinarith

theorem checkInitialized_of_isNumeric (v : VMValue) (h : v.isNumeric = true) :
    checkInitialized v = .ok () := by
  cases v <;> simp [VMValue.isNumeric] at h <;> simp [checkInitialized]

theorem step_store_spec (prog : List Instr) (st : VMState) (k : ℕ)
    (hi : prog.get? st.ip = some (.store k))
    (hsp : st.stack.sp ≠ 0)
    (hvi : ¬ st.stack.data (st.stack.sp - 1) = .uninit)
    (hcap : st.bp + k < stackCapacity) :
    step prog st = .next
      { st with
          ip := st.ip + 1,
          stack := { st.stack with
            data := Function.update st.stack.data (st.bp + k)
              (st.stack.data (st.stack.sp - 1)) } } := by
  simp only [step, hi, VMStack.peek, if_neg hsp, checkInitialized, if_neg hvi,
    reduceCtorEq, if_false, VMStack.store, if_pos hcap]

theorem step_storeIdx_spec (prog : List Instr) (st : VMState) (v : VMValue) (i : ℤ) (a : ℕ)
    (hi : prog.get? st.ip = some .storeIdx)
    (hsp : 3 ≤ st.stack.sp)
    (hv : st.stack.data (st.stack.sp - 1) = v)
    (hvi : ¬ v = .uninit)
    (hidx : st.stack.data (st.stack.sp - 2) = .int i)
    (hptr : st.stack.data (st.stack.sp - 3) = .pointer a)
    (ha : a < st.heap.length)
    (hcap : st.stack.sp - 3 < stackCapacity) :
    step prog st =
      if i < 0 ∨ ((st.heap.getD a []).length : ℤ) ≤ i then
        .fail (.arrayIndexOutOfBounds i (st.heap.getD a []).length)
          { st with
              ip := st.ip + 1,
              stack := { st.stack with sp := st.stack.sp - 3 } }
      else
        .next
          { st with
              ip := st.ip + 1,
              stack := { st.stack with
                data := Function.update st.stack.data (st.stack.sp - 3) v,
                sp := st.stack.sp - 2 },
              heap := st.heap.store a i.toNat v } := by
  have h1 : st.stack.sp ≠ 0 := by omega
  have h2 : st.stack.sp - 1 ≠ 0 := by omega
  have e1 : st.stack.sp - 1 - 1 = st.stack.sp - 2 := by omega
  have h3 : st.stack.sp - 2 ≠ 0 := by omega
  have e2 : st.stack.sp - 2 - 1 = st.stack.sp - 3 := by omega
  have e3 : st.stack.sp - 3 + 1 = st.stack.sp - 2 := by omega
  have hha : ¬ st.heap.length ≤ a := by omega
  by_cases hb : i < 0 ∨ ((st.heap.getD a []).length : ℤ) ≤ i
  · simp only [step, hi, VMStack.pop, if_neg h1, if_neg h2, e1, if_neg h3, e2,
      hv, hidx, hptr, checkInitialized, if_neg hvi, reduceCtorEq, if_false,
      checkHeapAddress, if_neg hha, checkArrayBounds, if_pos hb, if_pos hb]
  · simp only [step, hi, VMStack.pop, if_neg h1, if_neg h2, e1, if_neg h3, e2,
      hv, hidx, hptr, checkInitialized, if_neg hvi, reduceCtorEq, if_false,
      checkHeapAddress, if_neg hha, checkArrayBounds, if_neg hb,
      VMStack.push, if_neg (by omega : ¬ stackCapacity ≤ st.stack.sp - 3), e3]

theorem step_loadIdx_spec (prog : List Instr) (st : VMState) (i : ℤ) (a : ℕ)
    (hi : prog.get? st.ip = some .loadIdx)
    (hsp : 2 ≤ st.stack.sp)
    (hidx : st.stack.data (st.stack.sp - 1) = .int i)
    (hptr : st.stack.data (st.stack.sp - 2) = .pointer a)
    (ha : a < st.heap.length)
    (hcap : st.stack.sp - 2 < stackCapacity) :
    step prog st =
      if i < 0 ∨ ((st.heap.getD a []).length : ℤ) ≤ i then
        .fail (.arrayIndexOutOfBounds i (st.heap.getD a []).length)
          { st with
              ip := st.ip + 1,
              stack := { st.stack with sp := st.stack.sp - 2 } }
      else
        .next
          { st with
              ip := st.ip + 1,
              stack := { st.stack with
                data := Function.update st.stack.data (st.stack.sp - 2)
                  (st.heap.load a i.toNat),
                sp := st.stack.sp - 1 } } := by
  have h1 : st.stack.sp ≠ 0 := by omega
  have h2 : st.stack.sp - 1 ≠ 0 := by omega
  have e1 : st.stack.sp - 1 - 1 = st.stack.sp - 2 := by omega
  have e2 : st.stack.sp - 2 + 1 = st.stack.sp - 1 := by omega
  have hha : ¬ st.heap.length ≤ a := by omega
  by_cases hb : i < 0 ∨ ((st.heap.getD a []).length : ℤ) ≤ i
  · simp only [step, hi, VMStack.pop, if_neg h1, if_neg h2, e1,
      hidx, hptr, checkInitialized, reduceCtorEq, if_false,
      checkHeapAddress, if_neg hha, checkArrayBounds, if_pos hb, if_pos hb]
  · simp only [step, hi, VMStack.pop, if_neg h1, if_neg h2, e1,
      hidx, hptr, checkInitialized, reduceCtorEq, if_false,
      checkHeapAddress, if_neg hha, checkArrayBounds, if_neg hb,
      VMStack.push, if_neg (by omega : ¬ stackCapacity ≤ st.stack.sp - 2), e2]

/-- C3: assignment forms leave the assigned value on top of the stack.
`store k` writes the top of stack to slot `bp + k` without popping — the
successor state keeps `sp` and the top slot unchanged (second conjunct) —
and `store_idx` pops value, index and pointer but pushes the stored value
back, so the new top (at `sp - 2 - 1`) is the stored value.  The concrete
programs `int a = 0; int b = 0; b = a = 5; b;` and
`int arr[1]; int x = (arr[0] = 7) + 1; x;` exercise both store-as-expression
forms end to end. -/
theorem c3_store_leaves_value_on_top :
    (∀ (prog : List Instr) (st : VMState) (k : ℕ),
      prog.get? st.ip = some (.store k) →
      st.stack.sp ≠ 0 →
      ¬ st.stack.data (st.stack.sp - 1) = .uninit →
      st.bp + k < stackCapacity →
      step prog st = .next
        { st with
            ip := st.ip + 1,
            stack := { st.stack with
              data := Function.update st.stack.data (st.bp + k)
                (st.stack.data (st.stack.sp - 1)) } } ∧
      Function.update st.stack.data (st.bp + k) (st.stack.data (st.stack.sp - 1))
        (st.stack.sp - 1) = st.stack.data (st.stack.sp - 1)) ∧
    (∀ (prog : List Instr) (st : VMState) (v : VMValue) (i : ℤ) (a : ℕ),
      prog.get? st.ip = some .storeIdx →
      3 ≤ st.stack.sp →
      st.stack.data (st.stack.sp - 1) = v →
      ¬ v = .uninit →
      st.stack.data (st.stack.sp - 2) = .int i →
      st.stack.data (st.stack.sp - 3) = .pointer a →
      a < st.heap.length →
      st.stack.sp - 3 < stackCapacity →
      ¬ (i < 0 ∨ ((st.heap.getD a []).length : ℤ) ≤ i) →
      step prog st = .next
        { st with
            ip := st.ip + 1,
            stack := { st.stack with
              data := Function.update st.stack.data (st.stack.sp - 3) v,
              sp := st.stack.sp - 2 },
            heap := st.heap.store a i.toNat v } ∧
      Function.update st.stack.data (st.stack.sp - 3) v (st.stack.sp - 2 - 1) = v) ∧
    runOutcome chainedAssignProgram 100 = some (some (.int 5)) ∧
    runOutcome storeIdxExprProgram 100 = some (some (.int 8)) := by
  refine ⟨?_, ?_, by decide, by decide⟩
  · intro prog st k hi hsp hvi hcap
    refine ⟨step_store_spec prog st k hi hsp hvi hcap, ?_⟩
    by_cases hk : st.bp + k = st.stack.sp - 1
    · rw [hk, Function.update_same]
    · rw [Function.update_noteq (by omega)]
  · intro prog st v i a hi hsp hv hvi hidx hptr ha hcap hb
    have hspec := step_storeIdx_spec prog st v i a hi hsp hv hvi hidx hptr ha hcap
    rw [if_neg hb] at hspec
    refine ⟨hspec, ?_⟩
    have e : st.stack.sp - 2 - 1 = st.stack.sp - 3 := by omega
    rw [e, Function.update_same]

/-- Witness for C3: `store 0` on a single-boolean stack keeps the value on
top, and an in-range `store_idx` on a one-element array pushes the stored
value back. -/
theorem c3_store_leaves_value_on_top_witness :
    step [Instr.store 0] (boolTopState true) = .next
      { boolTopState true with
          ip := 1,
          stack := { (boolTopState true).stack with
            data := Function.update (boolTopState true).stack.data 0
              ((boolTopState true).stack.data 0) } } ∧
    step [Instr.storeIdx] (storeIdxState 0) = .next
      { storeIdxState 0 with
          ip := 1,
          stack := { (storeIdxState 0).stack with
            data := Function.update (storeIdxState 0).stack.data 0 (.int 9),
            sp := 1 },
          heap := [[.int 9]] } := by
  constructor
  · exact (c3_store_leaves_value_on_top.1 [Instr.store 0] (boolTopState true) 0
      rfl (by decide) (by decide) (by decide)).1
  · exact (c3_store_leaves_value_on_top.2.1 [Instr.storeIdx] (storeIdxState 0)
      (.int 9) 0 0 rfl (by decide) rfl (by decide) rfl rfl (by decide) (by decide)
      (by decide)).1

/-- C4: division and modulo semantics.  With two initialized numeric
operands (left payload `l` at `sp - 2`, right payload `r` at `sp - 1`),
`div` and `percent` raise the division-by-zero error exactly when `r = 0`;
otherwise `div` pushes the integer `ratTrunc (l / r)` and `percent` pushes
the integer `ratTrunc (jsRem l r)`.  The characterization conjuncts state
that `ratTrunc` is truncation toward zero (the floor side for nonnegative
arguments, the ceiling side for nonpositive ones) and that the remainder's
sign follows the dividend.  The concrete runs check `-7 / 2 = -3`,
`7 / -2 = -3`, `-7 % 2 = -1`, `7 % -2 = 1` and the zero-divisor errors. -/
theorem c4_div_percent_semantics :
    (∀ (prog : List Instr) (st : VMState),
      prog.get? st.ip = some .div →
      2 ≤ st.stack.sp →
      (st.stack.data (st.stack.sp - 2)).isNumeric = true →
      (st.stack.data (st.stack.sp - 1)).isNumeric = true →
      ((st.stack.data (st.stack.sp - 1)).num = 0 →
        step prog st = .fail .divisionByZero
          { st with
              ip := st.ip + 1,
              stack := { st.stack with sp := st.stack.sp - 2 } }) ∧
      ((st.stack.data (st.stack.sp - 1)).num ≠ 0 →
        st.stack.sp - 2 < stackCapacity →
        step prog st = .next
          { st with
              ip := st.ip + 1,
              stack := { st.stack with
                data := Function.update st.stack.data (st.stack.sp - 2)
                  (.int (ratTrunc ((st.stack.data (st.stack.sp - 2)).num
                    / (st.stack.data (st.stack.sp - 1)).num))),
                sp := st.stack.sp - 1 } })) ∧
    (∀ (prog : List Instr) (st : VMState),
      prog.get? st.ip = some .percent →
      2 ≤ st.stack.sp →
      (st.stack.data (st.stack.sp - 2)).isNumeric = true →
      (st.stack.data (st.stack.sp - 1)).isNumeric = true →
      ((st.stack.data (st.stack.sp - 1)).num = 0 →
        step prog st = .fail .divisionByZero
          { st with
              ip := st.ip + 1,
              stack := { st.stack with sp := st.stack.sp - 2 } }) ∧
      ((st.stack.data (st.stack.sp - 1)).num ≠ 0 →
        st.stack.sp - 2 < stackCapacity →
        step prog st = .next
          { st with
              ip := st.ip + 1,
              stack := { st.stack with
                data := Function.update st.stack.data (st.stack.sp - 2)
                  (.int (ratTrunc (jsRem (st.stack.data (st.stack.sp - 2)).num
                    (st.stack.data (st.stack.sp - 1)).num))),
                sp := st.stack.sp - 1 } })) ∧
    (∀ q : ℚ, 0 ≤ q → (ratTrunc q : ℚ) ≤ q ∧ q - 1 < (ratTrunc q : ℚ)) ∧
    (∀ q : ℚ, q ≤ 0 → q ≤ (ratTrunc q : ℚ) ∧ (ratTrunc q : ℚ) < q + 1) ∧
    (∀ l r : ℚ, r ≠ 0 → 0 ≤ l → 0 ≤ jsRem l r ∧ 0 ≤ ratTrunc (jsRem l r)) ∧
    (∀ l r : ℚ, r ≠ 0 → l ≤ 0 → jsRem l r ≤ 0 ∧ ratTrunc (jsRem l r) ≤ 0) ∧
    (run [.push (.int (-7)), .push (.int 2), .div] 10 initState).value
      = some (some (.int (-3))) ∧
    (run [.push (.int 7), .push (.int (-2)), .div] 10 initState).value
      = some (some (.int (-3))) ∧
    (run [.push (.int (-7)), .push (.int 2), .percent] 10 initState).value
      = some (some (.int (-1))) ∧
    (run [.push (.int 7), .push (.int (-2)), .percent] 10 initState).value
      = some (some (.int 1)) ∧
    (run [.push (.int 5), .push (.int 0), .div] 10 initState).errOf
      = some .divisionByZero ∧
    (run [.push (.int 5), .push (.int 0), .percent] 10 initState).errOf
      = some .divisionByZero := by
  refine ⟨?_, ?_, ?_, ?_, ?_, ?_, by decide, by decide, by decide, by decide,
    by decide, by decide⟩
  · intro prog st hi hsp hnl hnr
    have h1 : st.stack.sp ≠ 0 := by omega
    have h2 : st.stack.sp - 1 ≠ 0 := by omega
    have e1 : st.stack.sp - 1 - 1 = st.stack.sp - 2 := by omega
    have e2 : st.stack.sp - 2 + 1 = st.stack.sp - 1 := by omega
    constructor
    · intro hr0
      simp only [step, hi, binDivLike, VMStack.pop, if_neg h1, if_neg h2, e1,
        checkInitialized_of_isNumeric _ hnl, checkInitialized_of_isNumeric _ hnr,
        hnl, hnr, Bool.not_true, Bool.or_self, Bool.false_eq_true, if_false, hr0,
        eq_self_iff_true, if_true]
    · intro hrn hcap
      simp only [step, hi, binDivLike, VMStack.pop, if_neg h1, if_neg h2, e1,
        checkInitialized_of_isNumeric _ hnl, checkInitialized_of_isNumeric _ hnr,
        hnl, hnr, Bool.not_true, Bool.or_self, Bool.false_eq_true, if_false,
        if_neg hrn, VMStack.push, if_neg (by omega : ¬ stackCapacity ≤ st.stack.sp - 2),
        e2, createInt, ratDiv_eq]
  · intro prog st hi hsp hnl hnr
    have h1 : st.stack.sp ≠ 0 := by omega
    have h2 : st.stack.sp - 1 ≠ 0 := by omega
    have e1 : st.stack.sp - 1 - 1 = st.stack.sp - 2 := by omega
    have e2 : st.stack.sp - 2 + 1 = st.stack.sp - 1 := by omega
    constructor
    · intro hr0
      simp only [step, hi, binDivLike, VMStack.pop, if_neg h1, if_neg h2, e1,
        checkInitialized_of_isNumeric _ hnl, checkInitialized_of_isNumeric _ hnr,
        hnl, hnr, Bool.not_true, Bool.or_self, Bool.false_eq_true, if_false, hr0,
        eq_self_iff_true, if_true]
    · intro hrn hcap
      simp only [step, hi, binDivLike, VMStack.pop, if_neg h1, if_neg h2, e1,
        checkInitialized_of_isNumeric _ hnl, checkInitialized_of_isNumeric _ hnr,
        hnl, hnr, Bool.not_true, Bool.or_self, Bool.false_eq_true, if_false,
        if_neg hrn, VMStack.push, if_neg (by omega : ¬ stackCapacity ≤ st.stack.sp - 2),
        e2, createInt]
  · intro q hq
    rw [ratTrunc_eq_floor q hq]
    exact ⟨Int.floor_le q, by linarith [Int.lt_floor_add_one q]⟩
  · intro q hq
    rw [ratTrunc_eq_ceil q hq]
    exact ⟨Int.le_ceil q, by linarith [Int.ceil_lt_add_one q]⟩
  · intro l r hr hl
    exact ⟨jsRem_nonneg l r hr hl, ratTrunc_nonneg _ (jsRem_nonneg l r hr hl)⟩
  · intro l r hr hl
    exact ⟨jsRem_nonpos l r hr hl, ratTrunc_nonpos _ (jsRem_nonpos l r hr hl)⟩

/-- Witness for C4: both opcodes applied to a stack holding two integer
zeros raise the division-by-zero error, and the truncation and sign
characterizations instantiated at 0 and at (0, 1). -/
theorem c4_div_percent_semantics_witness :
    step [Instr.div] zeroPairState = .fail .divisionByZero
      { zeroPairState with ip := 1, stack := { zeroPairState.stack with sp := 0 } } ∧
    step [Instr.percent] zeroPairState = .fail .divisionByZero
      { zeroPairState with ip := 1, stack := { zeroPairState.stack with sp := 0 } } ∧
    ((ratTrunc (0 : ℚ) : ℚ) ≤ 0 ∧ (0 : ℚ) - 1 < (ratTrunc (0 : ℚ) : ℚ)) ∧
    (0 ≤ jsRem 0 1 ∧ 0 ≤ ratTrunc (jsRem 0 1)) := by
  refine ⟨?_, ?_, ?_, ?_⟩
  · exact (c4_div_percent_semantics.1 [Instr.div] zeroPairState rfl (by decide)
      rfl rfl).1 rfl
  · exact (c4_div_percent_semantics.2.1 [Instr.percent] zeroPairState rfl (by decide)
      rfl rfl).1 rfl
  · exact c4_div_percent_semantics.2.2.1 0 le_rfl
  · exact c4_div_percent_semantics.2.2.2.2.1 0 1 one_ne_zero le_rfl

/-- C6: array bounds safety.  With a valid array pointer (address `a` in
range) and an integer index `i` on the stack, `load_idx` and `store_idx`
raise the out-of-bounds error — which carries the index and the array
length and renders the range `[0, len-1]` — exactly when `i < 0` or
`i ≥ len`; the failure state carries the heap unchanged (no element has
been read or written), while in range the heap is only modified by the
store.  The seed program `int arr[3]; arr[3] = 10;` fails with index 3 out
of `[0, 2]` and its heap still holds the pristine `[0, 0, 0]` array. -/
theorem c6_array_bounds_safety :
    (∀ (prog : List Instr) (st : VMState) (i : ℤ) (a : ℕ),
      prog.get? st.ip = some .loadIdx →
      2 ≤ st.stack.sp →
      st.stack.data (st.stack.sp - 1) = .int i →
      st.stack.data (st.stack.sp - 2) = .pointer a →
      a < st.heap.length →
      st.stack.sp - 2 < stackCapacity →
      ((i < 0 ∨ ((st.heap.getD a []).length : ℤ) ≤ i) ↔
        step prog st = .fail (.arrayIndexOutOfBounds i (st.heap.getD a []).length)
          { st with
              ip := st.ip + 1,
              stack := { st.stack with sp := st.stack.sp - 2 } }) ∧
      (VMState.heap { st with
          ip := st.ip + 1,
          stack := { st.stack with sp := st.stack.sp - 2 } } = st.heap) ∧
      (¬ (i < 0 ∨ ((st.heap.getD a []).length : ℤ) ≤ i) →
        step prog st = .next
          { st with
              ip := st.ip + 1,
              stack := { st.stack with
                data := Function.update st.stack.data (st.stack.sp - 2)
                  (st.heap.load a i.toNat),
                sp := st.stack.sp - 1 } })) ∧
    (∀ (prog : List Instr) (st : VMState) (v : VMValue) (i : ℤ) (a : ℕ),
      prog.get? st.ip = some .storeIdx →
      3 ≤ st.stack.sp →
      st.stack.data (st.stack.sp - 1) = v →
      ¬ v = .uninit →
      st.stack.data (st.stack.sp - 2) = .int i →
      st.stack.data (st.stack.sp - 3) = .pointer a →
      a < st.heap.length →
      st.stack.sp - 3 < stackCapacity →
      ((i < 0 ∨ ((st.heap.getD a []).length : ℤ) ≤ i) ↔
        step prog st = .fail (.arrayIndexOutOfBounds i (st.heap.getD a []).length)
          { st with
              ip := st.ip + 1,
              stack := { st.stack with sp := st.stack.sp - 3 } }) ∧
      (VMState.heap { st with
          ip := st.ip + 1,
          stack := { st.stack with sp := st.stack.sp - 3 } } = st.heap) ∧
      (¬ (i < 0 ∨ ((st.heap.getD a []).length : ℤ) ≤ i) →
        step prog st = .next
          { st with
              ip := st.ip + 1,
              stack := { st.stack with
                data := Function.update st.stack.data (st.stack.sp - 3) v,
                sp := st.stack.sp - 2 },
              heap := st.heap.store a i.toNat v })) ∧
    (RtErr.arrayIndexOutOfBounds 3 3).message = "数组访问越界：索引 3 超出范围 [0, 2]" ∧
    runError outOfBoundsStoreProgram 100 = some (.arrayIndexOutOfBounds 3 3) ∧
    runFailureHeap outOfBoundsStoreProgram 100 = some [[.int 0, .int 0, .int 0]] := by
  refine ⟨?_, ?_, rfl, by decide, by decide⟩
  · intro prog st i a hi hsp hidx hptr ha hcap
    have hspec := step_loadIdx_spec prog st i a hi hsp hidx hptr ha hcap
    refine ⟨⟨?_, ?_⟩, rfl, ?_⟩
    · intro hb
      rw [hspec, if_pos hb]
    · intro hfail
      by_contra hnot
      rw [if_neg hnot] at hspec
      rw [hspec] at hfail
      exact StepResult.noConfusion hfail
    · intro hb
      rw [hspec, if_neg hb]
  · intro prog st v i a hi hsp hv hvi hidx hptr ha hcap
    have hspec := step_storeIdx_spec prog st v i a hi hsp hv hvi hidx hptr ha hcap
    refine ⟨⟨?_, ?_⟩, rfl, ?_⟩
    · intro hb
      rw [hspec, if_pos hb]
    · intro hfail
      by_contra hnot
      rw [if_neg hnot] at hspec
      rw [hspec] at hfail
      exact StepResult.noConfusion hfail
    · intro hb
      rw [hspec, if_neg hb]

/-- Witness for C6: on a one-element array, index 5 faults both opcodes
with the `[0, 0]` range error and an untouched heap, while index 0
succeeds. -/
theorem c6_array_bounds_safety_witness :
    step [Instr.loadIdx] (loadIdxState 5) = .fail (.arrayIndexOutOfBounds 5 1)
      { loadIdxState 5 with
          ip := 1, stack := { (loadIdxState 5).stack with sp := 0 } } ∧
    step [Instr.storeIdx] (storeIdxState 5) = .fail (.arrayIndexOutOfBounds 5 1)
      { storeIdxState 5 with
          ip := 1, stack := { (storeIdxState 5).stack with sp := 0 } } ∧
    step [Instr.loadIdx] (loadIdxState 0) = .next
      { loadIdxState 0 with
          ip := 1,
          stack := { (loadIdxState 0).stack with
            data := Function.update (loadIdxState 0).stack.data 0 (.int 7),
            sp := 1 } } := by
  refine ⟨?_, ?_, ?_⟩
  · exact ((c6_array_bounds_safety.1 [Instr.loadIdx] (loadIdxState 5) 5 0
      rfl (by decide) rfl rfl (by decide) (by decide)).1).mp (by decide)
  · exact ((c6_array_bounds_safety.2.1 [Instr.storeIdx] (storeIdxState 5) (.int 9) 5 0
      rfl (by decide) rfl (by decide) rfl rfl (by decide) (by decide)).1).mp (by decide)
  · exact (c6_array_bounds_safety.1 [Instr.loadIdx] (loadIdxState 0) 0 0
      rfl (by decide) rfl rfl (by decide) (by decide)).2.2 (by decide)

/-- C7: the program's result is the value of a trailing expression
statement.  `generate` compiles all but the last statement, then compiles a
trailing expression statement as a bare expression — without the `pop` that
`genStmt` would append (second conjunct) — so its value is still on the
stack when the VM runs off the end of the bytecode, and the halt rule
returns the top of stack exactly when `sp > bp` (third conjunct), `none`
otherwise.  Concretely, `int a = 41; a + 1;` evaluates to `int 42`, while
`{ int a = 1; }` ends with an empty stack and no result. -/
theorem c7_trailing_expression_is_program_result :
    (∀ (body : List Stmt) (e : Expr) (s1 s2 : CGState),
      genStmts body cgInit = .ok s1 →
      genExpr e s1 = .ok s2 →
      generate (body ++ [.exprStmt e]) = .ok s2.bytecode) ∧
    (∀ (e : Expr) (s1 s2 : CGState),
      genExpr e s1 = .ok s2 →
      genStmt (.exprStmt e) s1 = .ok (emit .pop s2)) ∧
    (∀ (prog : List Instr) (st : VMState),
      prog.get? st.ip = none →
      step prog st = .halt (if st.bp < st.stack.sp
        then some (st.stack.data (st.stack.sp - 1)) else none)) ∧
    runOutcome lastExprProgram 100 = some (some (.int 42)) ∧
    runOutcome blockOnlyProgram 100 = some none := by
  refine ⟨?_, ?_, ?_, by decide, by decide⟩
  · intro body e s1 s2 h1 h2
    simp only [generate, List.dropLast_concat, h1, List.getLast?_concat, h2]
  · intro e s1 s2 h
    have hdef : genStmt (.exprStmt e) s1 = (match genExpr e s1 with
      | .error err => .error err
      | .ok s3 => .ok (emit .pop s3)) := rfl
    rw [hdef, h]
  · intro prog st h
    simp only [step, h]

/-- Witness for C7: a lone expression statement `42;` compiles with no
trailing pop, the same statement in non-final position gets the pop, and
the empty program halts immediately with no result. -/
theorem c7_trailing_expression_is_program_result_witness :
    generate ([] ++ [Stmt.exprStmt (litI 42)])
      = .ok (emit (.push (createInt 42)) cgInit).bytecode ∧
    genStmt (.exprStmt (litI 42)) cgInit
      = .ok (emit .pop (emit (.push (createInt 42)) cgInit)) ∧
    step [] initState = .halt (if initState.bp < initState.stack.sp
      then some (initState.stack.data (initState.stack.sp - 1)) else none) := by
  refine ⟨?_, ?_, ?_⟩
  · exact c7_trailing_expression_is_program_result.1 [] (litI 42) cgInit
      (emit (.push (createInt 42)) cgInit) (by decide) (by decide)
  · exact c7_trailing_expression_is_program_result.2.1 (litI 42) cgInit
      (emit (.push (createInt 42)) cgInit) (by decide)
  · exact c7_trailing_expression_is_program_result.2.2.1 [] initState rfl

theorem findIdx?_bound {α : Type} (p : α → Bool) :
    ∀ (l : List α) (i j : ℕ), List.findIdx? p l i = some j → j < i + l.length
  | [], i, j, h => by simp [List.findIdx?] at h
  | a :: l, i, j, h => by
    rw [List.findIdx?_cons] at h
    by_cases hp : p a = true
    · rw [if_pos hp] at h
      cases h
      simp
    · rw [if_neg hp] at h
      have := findIdx?_bound p l (i + 1) j h
      simp only [List.length_cons]
      omega

theorem takeWhile_eq_nil_of_all {α : Type} (p : α → Bool) (l : List α)
    (h : ∀ a ∈ l, p a = false) : l.takeWhile p = [] := by
  cases l with
  | nil => rfl
  | cons a l => rw [List.takeWhile_cons, if_neg (by simp [h a (List.mem_cons_self a l)])]

theorem dropWhile_eq_self_of_all {α : Type} (p : α → Bool) (l : List α)
    (h : ∀ a ∈ l, p a = false) : l.dropWhile p = l := by
  cases l with
  | nil => rfl
  | cons a l => rw [List.dropWhile_cons, if_neg (by simp [h a (List.mem_cons_self a l)])]

theorem mem_takeWhile_append_cons {α : Type} (q : α → Bool) (A B : List α) (a : α)
    (hA : ∀ b ∈ A, q b = true) (ha : q a = true) :
    a ∈ (A ++ a :: B).takeWhile q := by
  rw [List.takeWhile_append, if_pos (by rw [List.takeWhile_eq_self_iff.mpr hA]),
    List.takeWhile_cons, if_pos ha]
  exact List.mem_append_right _ (List.mem_cons_self a _)

theorem defineAll_inner (x : String) (d : ℕ) :
    ∀ (ys : List String) (t1 t2 : SymbolTable),
    t1.scopeDepth = d + 1 →
    (∃ P Q, t1.locals = P ++ ⟨x, d + 1⟩ :: Q ∧ ∀ en ∈ Q, en.depth = d + 1) →
    defineAll ys t1 = .ok t2 →
    t2.scopeDepth = d + 1 ∧
    ∃ zs, t2.locals = t1.locals ++ zs ∧ zs.length = ys.length ∧
      ∀ en ∈ zs, en.depth = d + 1 ∧ en.name ≠ x
  | [], t1, t2, hsd, _, h => by
    simp only [defineAll] at h
    cases h
    exact ⟨hsd, [], by simp, rfl, by simp⟩
  | y :: ys, t1, t2, hsd, hPQ, h => by
    simp only [defineAll] at h
    split at h
    · exact absurd h (by simp)
    · rename_i t1' heq
      unfold SymbolTable.define at heq
      split at heq
      · exact absurd heq (by simp)
      · rename_i hany
        injection heq with heq1
        subst heq1
        obtain ⟨P, Q, hPQeq, hQ⟩ := hPQ
        rw [Bool.not_eq_true, List.any_eq_false] at hany
        have hrev : t1.locals.reverse = Q.reverse ++ ⟨x, d + 1⟩ :: P.reverse := by
          rw [hPQeq]; simp
        have hxy : x ≠ y := by
          have hmem := mem_takeWhile_append_cons
            (fun e => decide ¬ e.depth < t1.scopeDepth) Q.reverse P.reverse ⟨x, d + 1⟩
            (by
              intro b hb
              have := hQ b (List.mem_reverse.mp hb)
              simp [this, hsd])
            (by simp [hsd])
          rw [← hrev] at hmem
          have := hany _ hmem
          simpa using this
        have hIH := defineAll_inner x d ys
          { t1 with locals := t1.locals ++ [⟨y, t1.scopeDepth⟩] } t2 hsd
          ⟨P, Q ++ [⟨y, d + 1⟩], by rw [hPQeq, hsd]; simp, by
            intro en hen
            rcases List.mem_append.mp hen with h1 | h1
            · exact hQ en h1
            · simp at h1; rw [h1]⟩ h
        obtain ⟨hsd2, zs, hloc, hlen, hzs⟩ := hIH
        refine ⟨hsd2, ⟨y, t1.scopeDepth⟩ :: zs, ?_, by simp [hlen], ?_⟩
        · rw [hloc]; simp
        · intro en hen
          rcases List.mem_cons.mp hen with h1 | h1
          · rw [h1]; exact ⟨hsd, fun hc => hxy hc.symm⟩
          · exact hzs en h1

/-- C8: shadowing round-trip.  In any well-formed table (no recorded depth
exceeds the current one) where `resolve x` yields slot `s`, the sequence
`enterScope; define x; define y1; ...; define yn; exitScope` returns to a
state where `resolve x` yields `s` again: inside the inner scope `resolve x`
yields the strictly higher index `t.locals.length` (the slot of the
shadowing definition), and `exitScope` pops exactly the `n + 1` inner
records and restores the table verbatim. -/
theorem c8_shadowing_round_trip
    (t : SymbolTable) (x : String) (s : ℕ) (ys : List String) (t1 t2 : SymbolTable)
    (hdepth : ∀ en ∈ t.locals, en.depth ≤ t.scopeDepth)
    (hres : t.resolve x = .ok s)
    (hdef : t.enterScope.define x = .ok t1)
    (hdefs : defineAll ys t1 = .ok t2) :
    t2.resolve x = .ok t.locals.length ∧
    s < t.locals.length ∧
    t2.exitScope = (ys.length + 1, t) ∧
    t2.exitScope.2.resolve x = .ok s := by
  unfold SymbolTable.define at hdef
  split at hdef
  · exact absurd hdef (by simp)
  · injection hdef with hdef1
    subst hdef1
    have hB := defineAll_inner x t.scopeDepth ys _ t2 (by simp [SymbolTable.enterScope])
      ⟨t.locals, [], by simp [SymbolTable.enterScope], by simp⟩ hdefs
    obtain ⟨hsd2, zs, hloc, hlen, hzs⟩ := hB
    simp only [SymbolTable.enterScope] at hloc
    have hrev2 : t2.locals.reverse
        = zs.reverse ++ ⟨x, t.scopeDepth + 1⟩ :: t.locals.reverse := by
      rw [hloc]; simp
    -- inner resolve
    have hnone : List.findIdx? (fun e => e.name = x) zs.reverse = none := by
      rw [List.findIdx?_eq_none_iff]
      intro en hen
      simp [(hzs en (List.mem_reverse.mp hen)).2]
    have hl2 : t2.locals.length = t.locals.length + 1 + zs.length := by
      rw [hloc]; simp only [List.length_append, List.length_cons, List.length_nil]
    have hfind : List.findIdx? (fun e => e.name = x) t2.locals.reverse
        = some zs.length := by
      rw [hrev2, List.findIdx?_append, hnone, List.findIdx?_cons, if_pos (by simp)]
      simp
    have hres2 : t2.resolve x = .ok t.locals.length := by
      unfold SymbolTable.resolve
      rw [hfind]
      show Except.ok (t2.locals.length - 1 - zs.length) = Except.ok t.locals.length
      rw [show t2.locals.length - 1 - zs.length = t.locals.length from by omega]
    -- outer index bound
    have hslt : s < t.locals.length := by
      unfold SymbolTable.resolve at hres
      split at hres
      · rename_i j hj
        injection hres with hres1
        have := findIdx?_bound _ _ 0 j hj
        rw [List.length_reverse] at this
        omega
      · exact absurd hres (by simp)
    -- exit scope
    have hzrev : ∀ a ∈ zs.reverse, decide (a.depth = t2.scopeDepth) = true := by
      intro a ha
      simp [(hzs a (List.mem_reverse.mp ha)).1, hsd2]
    have htall : (zs.reverse.takeWhile fun e => decide (e.depth = t2.scopeDepth))
        = zs.reverse := List.takeWhile_eq_self_iff.mpr hzrev
    have hdfalse : ∀ a ∈ t.locals.reverse,
        (fun e => decide (e.depth = t2.scopeDepth)) a = false := by
      intro a ha
      have := hdepth a (List.mem_reverse.mp ha)
      simp only [decide_eq_false_iff_not, hsd2]
      omega
    have hexit : t2.exitScope = (ys.length + 1, t) := by
      unfold SymbolTable.exitScope
      rw [hrev2, List.takeWhile_append, if_pos (by rw [htall]),
        List.takeWhile_cons, if_pos (by simp [hsd2]),
        takeWhile_eq_nil_of_all _ _ hdfalse,
        List.dropWhile_append,
        if_pos (by simp [hsd2]; exact fun a ha => (hzs a ha).1),
        List.dropWhile_cons, if_pos (by simp [hsd2]),
        dropWhile_eq_self_of_all _ _ hdfalse]
      simp only [Prod.mk.injEq, List.reverse_reverse, List.length_append,
        List.length_reverse, List.length_cons, List.length_nil, hsd2,
        Nat.add_sub_cancel]
      exact ⟨by omega, trivial⟩
    refine ⟨hres2, hslt, hexit, ?_⟩
    rw [hexit]
    exact hres

/-- Witness for C8: a table holding `x` at slot 0 in depth 1, after
entering a scope, shadowing `x` and defining `y`, resolves `x` to the inner
slot 1, and after exiting resolves it to 0 again. -/
theorem c8_shadowing_round_trip_witness :
    (⟨[⟨"x", 1⟩, ⟨"x", 2⟩, ⟨"y", 2⟩], 2⟩ : SymbolTable).resolve "x"
      = .ok (⟨[⟨"x", 1⟩], 1⟩ : SymbolTable).locals.length ∧
    0 < (⟨[⟨"x", 1⟩], 1⟩ : SymbolTable).locals.length ∧
    (⟨[⟨"x", 1⟩, ⟨"x", 2⟩, ⟨"y", 2⟩], 2⟩ : SymbolTable).exitScope
      = (["y"].length + 1, ⟨[⟨"x", 1⟩], 1⟩) ∧
    ((⟨[⟨"x", 1⟩, ⟨"x", 2⟩, ⟨"y", 2⟩], 2⟩ : SymbolTable).exitScope).2.resolve "x"
      = .ok 0 := by
  exact c8_shadowing_round_trip ⟨[⟨"x", 1⟩], 1⟩ "x" 0 ["y"]
    ⟨[⟨"x", 1⟩, ⟨"x", 2⟩], 2⟩ ⟨[⟨"x", 1⟩, ⟨"x", 2⟩, ⟨"y", 2⟩], 2⟩
    (by decide) (by decide) (by decide) (by decide)

theorem genExpr_literal_ok (v : LitValue) (s : CGState) :
    ∃ s1, genExpr (.literal v) s = .ok s1 := by
  cases v with
  | num q =>
    by_cases hd : q.den = 1
    · exact ⟨emit (.push (createInt q)) s, by simp only [genExpr, if_pos hd]⟩
    · exact ⟨emit (.push (createDouble q)) s, by simp only [genExpr, if_neg hd]⟩
  | bool b => exact ⟨_, rfl⟩

/-- C10 (corrected): the compile-time `initializer list exceeds array size`
error is raised exactly when the declarator size is a LITERAL NODE of any
payload whose numeric reading (JS `>` coerces booleans) is exceeded — not
only a numeric literal.  The counterexample `int arr[true] = {1, 2};` has a
boolean literal size and still raises the error (first three conjuncts);
the fourth conjunct proves that any literal size (numeric or boolean)
smaller than the element count errors; the fifth proves that a non-literal
size skips the check entirely — compilation proceeds straight through the
per-element stores to the rest of the declaration — and the concrete runs
show `int n = 2; int arr[n] = {1, 2, 3}; arr[0];` compiling fine and
failing only at runtime, a bounds error on index 2 with the first two
elements already stored. -/
theorem c10_initializer_overflow_only_for_literal_sizes :
    compileErrorOf boolLiteralSizeProgram = some (.initializerTooLarge 2 (.bool true)) ∧
    isNumericLiteral (.literal (.bool true)) = false ∧
    isLiteralNode (.literal (.bool true)) = true ∧
    (∀ (dataType name : Token) (v : LitValue) (elements : List Expr)
        (rest : List Declarator) (s : CGState),
      litNum v < (elements.length : ℚ) →
      genDecls dataType
          (.mk name (some (.literal v)) (some (.initializerList elements)) :: rest) s
        = .error (.initializerTooLarge elements.length v)) ∧
    (∀ (dataType name : Token) (szExpr : Expr) (elements : List Expr)
        (rest : List Declarator) (s s1 sEnd : CGState) (table : SymbolTable),
      isLiteralNode szExpr = false →
      genExpr szExpr s = .ok s1 →
      genInitElems 0 elements (emit (.allocArr dataType) s1) = .ok sEnd →
      sEnd.symbolTable.define name.lexeme = .ok table →
      genDecls dataType
          (.mk name (some szExpr) (some (.initializerList elements)) :: rest) s
        = genDecls dataType rest { sEnd with symbolTable := table }) ∧
    compileErrorOf nonLiteralSizeOverflowProgram = none ∧
    runError nonLiteralSizeOverflowProgram 100 = some (.arrayIndexOutOfBounds 2 2) ∧
    runFailureHeap nonLiteralSizeOverflowProgram 100 = some [[.int 1, .int 2]] := by
  refine ⟨by decide, rfl, rfl, ?_, ?_, by decide, by decide, by decide⟩
  · intro dataType name v elements rest s hlt
    obtain ⟨s1, hg⟩ := genExpr_literal_ok v s
    simp only [genDecls, Option.isSome_some, Bool.or_true, eq_self_iff_true, if_true,
      hg, hlt]
  · intro dataType name szExpr elements rest s s1 sEnd table hlit hg hy hz
    cases szExpr with
    | literal v => simp [isLiteralNode] at hlit
    | identifier nm =>
      simp only [genDecls, Option.isSome_some, Bool.or_true, eq_self_iff_true, if_true,
        hg, hy, hz]
    | unary op r =>
      simp only [genDecls, Option.isSome_some, Bool.or_true, eq_self_iff_true, if_true,
        hg, hy, hz]
    | binary l op r =>
      simp only [genDecls, Option.isSome_some, Bool.or_true, eq_self_iff_true, if_true,
        hg, hy, hz]
    | assignment tg op vl =>
      simp only [genDecls, Option.isSome_some, Bool.or_true, eq_self_iff_true, if_true,
        hg, hy, hz]
    | update op arg pre =>
      simp only [genDecls, Option.isSome_some, Bool.or_true, eq_self_iff_true, if_true,
        hg, hy, hz]
    | subscript o i =>
      simp only [genDecls, Option.isSome_some, Bool.or_true, eq_self_iff_true, if_true,
        hg, hy, hz]
    | initializerList els =>
      simp only [genDecls, Option.isSome_some, Bool.or_true, eq_self_iff_true, if_true,
        hg, hy, hz]

/-- Witness for C10: the boolean-literal-size declarator raises the size
error, and a declarator sized by the variable `n` compiles on to the rest
of the declaration list. -/
theorem c10_initializer_overflow_only_for_literal_sizes_witness :
    genDecls (tok .kwInt "int")
        (.mk (tok .identifier "arr") (some (.literal (.bool true)))
          (some (.initializerList [litI 1, litI 2])) :: []) cgInit
      = .error (.initializerTooLarge 2 (.bool true)) ∧
    genDecls (tok .kwInt "int")
        (.mk (tok .identifier "arr") (some (identE "n"))
          (some (.initializerList [])) :: [])
        ⟨[], ⟨[⟨"n", 1⟩], 1⟩, []⟩
      = genDecls (tok .kwInt "int") []
          { emit (.allocArr (tok .kwInt "int"))
              (emit (.load 0) ⟨[], ⟨[⟨"n", 1⟩], 1⟩, []⟩) with
            symbolTable := ⟨[⟨"n", 1⟩, ⟨"arr", 1⟩], 1⟩ } := by
  constructor
  · exact c10_initializer_overflow_only_for_literal_sizes.2.2.2.1 (tok .kwInt "int") (tok .identifier "arr") (.bool true)
      [litI 1, litI 2] [] cgInit (by decide)
  · exact c10_initializer_overflow_only_for_literal_sizes.2.2.2.2.1 (tok .kwInt "int") (tok .identifier "arr") (identE "n")
      [] [] ⟨[], ⟨[⟨"n", 1⟩], 1⟩, []⟩
      (emit (.load 0) ⟨[], ⟨[⟨"n", 1⟩], 1⟩, []⟩)
      (emit (.allocArr (tok .kwInt "int")) (emit (.load 0) ⟨[], ⟨[⟨"n", 1⟩], 1⟩, []⟩))
      ⟨[⟨"n", 1⟩, ⟨"arr", 1⟩], 1⟩
      (by decide) (by decide) (by decide) (by decide)

/-- Counterexample to C10 as stated: the declarator `int arr[true] = {1, 2};`
raises the `initializer list exceeds array size` error even though its
declared size `true` is not a numeric literal — the generator's guard only
tests for a literal NODE, and JS `>` coerces the boolean payload to 1 for
the comparison while the message template renders the raw value `true`. -/
theorem c10_bool_literal_size_also_raises :
    compileErrorOf boolLiteralSizeProgram = some (.initializerTooLarge 2 (.bool true)) ∧
    isNumericLiteral (.literal (.bool true)) = false ∧
    isLiteralNode (.literal (.bool true)) = true ∧
    (CErr.initializerTooLarge 2 (.bool true)).message
      = "初始化列表的元素数量 (2) 超出数组大小 (true)。" := by
  exact ⟨by decide, rfl, rfl, rfl⟩

/-- C2 (code_bug evidence): storing an uninitialized value DOES raise in
the current VM, contrary to the claim and to the source's own comment
("Storing an uninitialized value is not an error, but using it is").
At the bytecode level, `store` with the sentinel on top raises the
use-of-uninitialized error, while the same store of an ordinary value
succeeds; `store_idx` behaves the same way; and the compiled source
programs `int a; int b = 0; b = a;` and `int arr[1]; int a; arr[0] = a;`
fail at their store instruction even though no arithmetic, comparison or
condition operator ever reads the sentinel. -/
theorem c2_store_of_uninitialized_raises :
    (run [.push .uninit, .store 0] 10 initState).errOf = some .uninitialized ∧
    (run [.push (.int 7), .store 0] 10 initState).errOf = none ∧
    (run [.push (.int 1), .allocArr (tok .kwInt "int"), .push (.int 0), .push .uninit,
       .storeIdx] 10 initState).errOf = some .uninitialized ∧
    runError uninitStoreProgram 100 = some .uninitialized ∧
    runError uninitStoreIdxProgram 100 = some .uninitialized ∧
    RtErr.uninitialized.message = "使用了未初始化的变量。" := by
  refine ⟨by decide, by decide, by decide, by decide, by decide, rfl⟩

/-- C5 (code_bug evidence): `alloc_arr` fills every element with the
integer 0 whatever the element type tag says: a freshly allocated `bool`
array element reads back as `int 0` (not `false`) and a `double` array
element as `int 0` (not `0.0`), and the repository's own padding test
programs for bool and double arrays therefore produce `int 0` where the
tests expect `false` resp. `0.0`. -/
theorem c5_alloc_fill_ignores_element_type :
    (run [.push (.int 2), .allocArr (tok .kwBool "bool"), .push (.int 1), .loadIdx]
      10 initState).value = some (some (.int 0)) ∧
    (run [.push (.int 2), .allocArr (tok .kwDouble "double"), .push (.int 1), .loadIdx]
      10 initState).value = some (some (.int 0)) ∧
    runOutcome boolArrayPadProgram 100 = some (some (.int 0)) ∧
    runOutcome doubleArrayPadProgram 100 = some (some (.int 0)) ∧
    (VMValue.int 0 ≠ .bool false) ∧ (VMValue.int 0 ≠ .double 0) := by
  refine ⟨by decide, by decide, by decide, by decide, by decide, by decide⟩

/-- C9 (code_bug evidence): the lexer's keyword table maps exactly the
nine words `int double bool true false if else for while` — `break` and
`continue` are missing, so an identifier-shaped lexeme `break` or
`continue` is emitted as an identifier token, not as the BREAK/CONTINUE
keyword token required by the claim and by the repository's own
break/continue tests. -/
theorem c9_keyword_table_misses_break_continue :
    lexerKeywords.map Prod.fst =
      ["int", "double", "bool", "true", "false", "if", "else", "for", "while"] ∧
    identifierTokenType "break" = .identifier ∧
    identifierTokenType "continue" = .identifier ∧
    identifierTokenType "int" = .kwInt ∧
    identifierTokenType "double" = .kwDouble ∧
    identifierTokenType "bool" = .kwBool ∧
    identifierTokenType "true" = .kwTrue ∧
    identifierTokenType "false" = .kwFalse ∧
    identifierTokenType "if" = .kwIf ∧
    identifierTokenType "else" = .kwElse ∧
    identifierTokenType "for" = .kwFor ∧
    identifierTokenType "while" = .kwWhile ∧
    identifierTokenType "breakx" = .identifier := by
  decide

end Prism
